import Mathlib

/-!
# Saliency.cpp: a shallow embedding

The functions of `src/saliency/src/Saliency.cpp` are embedded as Lean definitions.
The samples of the colour transforms and of `runAIM` are taken over exact arithmetic
(rationals, or an ordered field). The `float` and `double` operations of
`percentileThreshold` and `normalizeImage` are rounded to their formats, and the `int`
arithmetic of `loadBasis` is defined only within 32 bits. 8-bit samples are natural numbers.
Reads through `Mat::at` or a vector are fallible: a read whose index is outside yields
`none`, as does a function that ends without returning a value.
-/

namespace Saliency

/-! ## Floating-point rounding -/

/-- The nearest integer, a tie going to the even one: the rounding of an IEEE 754 operation
in its default mode, on the quotient of a value by the unit in its last place. -/
def roundHalfEven (x : ℚ) : Int :=
  let f := Int.floor x
  let d := x - (f : ℚ)
  if d < 1 / 2 then f
  else if 1 / 2 < d then f + 1
  else if f % 2 = 0 then f else f + 1

/-- The value nearest to `x` among the binary floating-point numbers with a significand of
`p` bits, a tie going to the even significand. The exponent is not bounded: a value too
large for the format stays finite and a value in the subnormal range keeps `p` bits. -/
def roundBinary (p : Nat) (x : ℚ) : ℚ :=
  if x = 0 then 0
  else (roundHalfEven (x / (2 : ℚ) ^ (Int.log 2 |x| - ((p : Int) - 1))) : ℚ)
    * (2 : ℚ) ^ (Int.log 2 |x| - ((p : Int) - 1))

/-- The result of an operation of type `float` (24-bit significand) with exact value `x`. -/
def roundFloat (x : ℚ) : ℚ :=
  roundBinary 24 x

/-- The result of an operation of type `double` (53-bit significand) with exact value `x`. -/
def roundDouble (x : ℚ) : ℚ :=
  roundBinary 53 x

/-- The conversion of a floating-point value to `int`: truncation towards zero, undefined
when the truncated value is not an `int` (32 bits, from `-2147483648` to `2147483647`). -/
def floatToInt (temp : ℚ) : Option Int :=
  if (if 0 ≤ temp then Int.floor temp else Int.ceil temp).natAbs < 2147483648 ∨
      (if 0 ≤ temp then Int.floor temp else Int.ceil temp) = -2147483648 then
    some (if 0 ≤ temp then Int.floor temp else Int.ceil temp)
  else none

/-! ## percentileThreshold -/

/-- The call `cv::sort(vectorizedMap, vectorizedMap, CV_SORT_ASCENDING)` on the flattened map. -/
def sortAscending (xs : List Nat) : List Nat :=
  xs.insertionSort (fun a b => a ≤ b)

/-- The integral part stored by `modf(ip, &kPart)`: truncation towards zero. -/
def modfInt (ip : ℚ) : Int :=
  if 0 ≤ ip then Int.floor ip else Int.ceil ip

/-- The fractional part returned by `modf(ip, &kPart)`; it is exact in `float`. -/
def modfFrac (ip : ℚ) : ℚ :=
  ip - (modfInt ip : ℚ)

/-- The read `vectorizedMap.at<uchar>(0, idx)` of a one-row matrix: defined only for a column
index inside the row. -/
def atRow (row : List Nat) (idx : Int) : Option Nat :=
  if 0 ≤ idx ∧ idx < (row.length : Int) then row[idx.toNat]? else none

/-- The read `vectorizedMap.at<uchar>(0, x)` with a `float` argument `x`, which is converted
to the `int` column index. -/
def atRowFloat (row : List Nat) (x : ℚ) : Option Nat :=
  match floatToInt x with
  | some idx => atRow row idx
  | none => none

/-- The `float` variable `ip` of `percentileThreshold`: `(percentile/100)*(n+1)` is computed
in `double` from the `double` argument `percentile` and stored as `float`. -/
def interpIndex (n : Nat) (percentile : ℚ) : ℚ :=
  roundFloat (roundDouble (roundDouble (percentile / 100) * ((n : ℚ) + 1)))

/-- The `float` expression `(1 - fPart)*h + fPart*g`, each operation rounded to `float`. -/
def interpolate (fPart : ℚ) (h g : Nat) : ℚ :=
  roundFloat (roundFloat (roundFloat (1 - fPart) * (h : ℚ)) + roundFloat (fPart * (g : ℚ)))

/-- The `float` cutoff `xInt` of `percentileThreshold`, with `h = sorted[kPart-1]` and
`g = sorted[kPart]`, for a finite `percentile`; `none` when `n+1` is not an `int` or one of
the two reads is outside the sorted row. The index `kPart-1` is a `float` subtraction. -/
def percentileCutoff (salMap : List Nat) (percentile : ℚ) : Option ℚ :=
  let vectorizedMap := sortAscending salMap
  let n := vectorizedMap.length
  if n + 1 < 2147483648 then
    let ip := interpIndex n percentile
    let kPart := modfInt ip
    let fPart := modfFrac ip
    match atRowFloat vectorizedMap (roundFloat ((kPart : ℚ) - 1)),
        atRowFloat vectorizedMap (kPart : ℚ) with
    | some h, some g => some (interpolate fPart h g)
    | _, _ => none
  else none

/-- One sample of `cv::threshold(src, dst, thresh, 255, THRESH_TOZERO)`, as documented by
OpenCV: `dst = src` when `src > thresh`, and `0` otherwise. -/
def threshToZero (thresh : ℚ) (v : Nat) : Nat :=
  if thresh < (v : ℚ) then v else 0

/-- The function `Saliency::percentileThreshold` on the flattened 8-bit map. -/
def percentileThreshold (salMap : List Nat) (percentile : ℚ) : Option (List Nat) :=
  match percentileCutoff salMap percentile with
  | some xInt => some (salMap.map (threshToZero xInt))
  | none => none

/-! ## imageConversion -/

/-- Modelled from the spec: the declaration of `enum colorSpace` in `Saliency.h`. The spec
gives the twenty variants in the order of the name list `_colors`; a value of the
enumeration is its index, and `static_cast<colorSpace>(pos)` keeps the integer `pos`. -/
abbrev colorSpace := Nat

namespace colorSpace

def RGB : colorSpace := 0
def HSV : colorSpace := 1
def Lab : colorSpace := 2
def Luv : colorSpace := 3
def HSI : colorSpace := 4
def HSL : colorSpace := 5
def CMY : colorSpace := 6
def C1C2C3 : colorSpace := 7
def COPP : colorSpace := 8
def YCrCb : colorSpace := 9
def YIQ : colorSpace := 10
def XYZ : colorSpace := 11
def UVW : colorSpace := 12
def YUV : colorSpace := 13
def OPP : colorSpace := 14
def NOPP : colorSpace := 15
def xyY : colorSpace := 16
def rg : colorSpace := 17
def YES : colorSpace := 18
def I1I2I3 : colorSpace := 19

end colorSpace

/-- A matrix as the list of its rows. -/
abbrev Mat (α : Type) := List (List α)

/-- One pixel of a three-channel matrix; `c0`, `c1`, `c2` are `channels[0]`, `channels[1]`,
`channels[2]` after `split` (blue, green, red in the formulas of `imageConversion`). -/
structure Vec3 (α : Type) where
  c0 : α
  c1 : α
  c2 : α
deriving DecidableEq

/-- The conversion codes passed to `cvtColor` in `imageConversion`. -/
inductive CvtCode where
  | BGR2HSV
  | BGR2HLS
  | BGR2Lab
  | BGR2Luv
  | BGR2YCrCb
  | BGR2XYZ
deriving DecidableEq

/-- The library functions `imageConversion` calls and the constant `PI`, over the sample
type `K`: they are parameters of the embedding. `cvtColor` acts on each pixel alone. -/
structure CvLib (K : Type) where
  sqrt : K → K
  atan2 : K → K → K
  PI : K
  cvtColor : CvtCode → Vec3 K → Vec3 K

section Conversion

variable {K : Type} [LinearOrderedField K]

/-- One sample of `threshold(m, m, 0, 0, THRESH_TOZERO)` on a float matrix. -/
def threshToZeroF (v : K) : K :=
  if 0 < v then v else 0

/-- One pixel of `scaledImage`: `inputImg.convertTo(scaledImage, CV_32FC3)` followed by
`scaledImage *= 1.f/255.f`. -/
def scalePixel (p : Vec3 Nat) : Vec3 K :=
  ⟨(p.c0 : K) * (1 / 255), (p.c1 : K) * (1 / 255), (p.c2 : K) * (1 / 255)⟩

/-- The value the `switch (type)` of `imageConversion` assigns to `output`, at one pixel `p`
of `scaledImage`: the list of the channels that are merged. Every transform of the switch is
pixel-wise. A value of `type` that matches no `case` takes the `default` branch. -/
def convertPixel (L : CvLib K) (type : colorSpace) (norm : Bool) (p : Vec3 K) : List K :=
  if type = colorSpace.HSV then
    let o := L.cvtColor CvtCode.BGR2HSV p
    if norm then [o.c0 / 360, o.c1, o.c2] else [o.c0, o.c1, o.c2]
  else if type = colorSpace.HSL then
    let o := L.cvtColor CvtCode.BGR2HLS p
    [if norm then o.c0 / 360 else o.c0, o.c2, o.c1]
  else if type = colorSpace.HSI then
    let t := L.cvtColor CvtCode.BGR2HLS p
    let I := 1 / 3 * (p.c0 + p.c1 + p.c2)
    let r := p.c2
    let g := p.c1
    let b := p.c0
    let S := if max g (max r b) ≠ 0 then 1 - min g (min r b) / I else 0
    [if norm then t.c0 / 360 else t.c0, S, I]
  else if type = colorSpace.CMY then
    [1 - p.c2, 1 - p.c1, 1 - p.c0]
  else if type = colorSpace.Lab then
    let o := L.cvtColor CvtCode.BGR2Lab p
    if norm then [o.c0 / 100, (o.c1 + 127) / 254, (o.c2 + 127) / 254] else [o.c0, o.c1, o.c2]
  else if type = colorSpace.Luv then
    let o := L.cvtColor CvtCode.BGR2Luv p
    if norm then [o.c0 / 100, (o.c1 + 134) / 354, (o.c2 + 140) / 262] else [o.c0, o.c1, o.c2]
  else if type = colorSpace.YCrCb then
    let o := L.cvtColor CvtCode.BGR2YCrCb p
    [o.c0, o.c1, o.c2]
  else if type = colorSpace.C1C2C3 then
    let r := p.c2
    let g := p.c1
    let b := p.c0
    let C1 := L.atan2 r (max g b)
    let C2 := L.atan2 g (max r b)
    let C3 := L.atan2 b (max g r)
    if norm then [(C1 + L.PI / 2) / L.PI, (C2 + L.PI / 2) / L.PI, (C3 + L.PI / 2) / L.PI]
    else [C1, C2, C3]
  else if type = colorSpace.COPP then
    let O1 := (p.c2 - p.c1) / L.sqrt 2
    let O2 := (p.c2 + p.c1 - 2 * p.c0) / L.sqrt 6
    if norm then
      let denom := 1 / L.sqrt 2
      let denom2 := 2 / L.sqrt 6
      [threshToZeroF ((O1 + denom) / (denom * 2)), threshToZeroF ((O2 + denom2) / (denom2 * 2))]
    else [O1, O2]
  else if type = colorSpace.XYZ then
    let o := L.cvtColor CvtCode.BGR2XYZ p
    if norm then [o.c0 / (950456 / 1000000), o.c1, o.c2 / (1088754 / 1000000)]
    else [o.c0, o.c1, o.c2]
  else if type = colorSpace.YIQ then
    let Y := 299 / 1000 * p.c2 + 587 / 1000 * p.c1 + 114 / 1000 * p.c0
    let I := 596 / 1000 * p.c2 - 274 / 1000 * p.c1 - 322 / 1000 * p.c0
    let Q := 211 / 1000 * p.c2 - 523 / 1000 * p.c1 - 312 / 1000 * p.c0
    if norm then [Y, (I + 596 / 1000) / (1192 / 1000), (Q + 835 / 1000) / (1046 / 1000)]
    else [Y, I, Q]
  else if type = colorSpace.UVW then
    let t := L.cvtColor CvtCode.BGR2XYZ p
    let U := 66 / 100 * t.c0
    let V := t.c1
    let W := -(5 / 10) * t.c0 + 15 / 10 * t.c1 + 5 / 10 * t.c2
    if norm then [U / (66 / 100), V, W / (1569149 / 1000000)] else [U, V, W]
  else if type = colorSpace.YUV then
    let Y := 299 / 1000 * p.c2 + 587 / 1000 * p.c1 + 114 / 1000 * p.c0
    let U := 492 / 1000 * (p.c0 - Y)
    let V := 77 / 100 * (p.c2 - Y)
    if norm then
      [Y, (U + 435912 / 1000000) / (871824 / 1000000), (V + 53977 / 100000) / (107954 / 100000)]
    else [Y, U, V]
  else if type = colorSpace.OPP then
    let O1 := (p.c2 - p.c1) / L.sqrt 2
    let O2 := (p.c2 + p.c1 - 2 * p.c0) / L.sqrt 6
    let O3 := (p.c0 + p.c1 + p.c2) / L.sqrt 3
    if norm then
      let denom := 1 / L.sqrt 2
      let denom2 := 2 / L.sqrt 6
      [threshToZeroF ((O1 + denom) / (denom * 2)), threshToZeroF ((O2 + denom2) / (denom2 * 2)),
        O3 / (1 / L.sqrt 3)]
    else [O1, O2, O3]
  else if type = colorSpace.NOPP then
    let O3 := (p.c0 + p.c1 + p.c2) / L.sqrt 3
    let O1 := (p.c2 - p.c1) / L.sqrt 2 / O3
    let O2 := (p.c2 + p.c1 - 2 * p.c0) / L.sqrt 6 / O3
    if norm then
      let denom1_1 := L.sqrt 3 / L.sqrt 2
      let denom1_2 := denom1_1 * 2
      let denom2_1 := 2 * L.sqrt 3 / L.sqrt 6
      let denom2_2 := denom2_1 + L.sqrt 3 / L.sqrt 6
      [threshToZeroF ((O1 + denom1_1) / denom1_2), threshToZeroF ((O2 + denom2_1) / denom2_2)]
    else [O1, O2]
  else if type = colorSpace.xyY then
    let t := L.cvtColor CvtCode.BGR2XYZ p
    let x := t.c0 / (t.c0 + t.c1 + t.c2)
    let y := t.c1 / (t.c0 + t.c1 + t.c2)
    if norm then [x / (639999814 / 1000000000), y / (6 / 10), t.c1] else [x, y, t.c1]
  else if type = colorSpace.rg then
    [p.c2 / (p.c0 + p.c1 + p.c2), p.c1 / (p.c0 + p.c1 + p.c2)]
  else if type = colorSpace.YES then
    let Y := 253 / 1000 * p.c2 + 684 / 1000 * p.c1 + 63 / 1000 * p.c0
    let E := 5 / 10 * p.c2 - 5 / 10 * p.c1
    let S := 250 / 1000 * p.c2 + 250 / 1000 * p.c1 - 5 / 10 * p.c0
    if norm then [Y, E + 5 / 10, S + 5 / 10] else [Y, E, S]
  else if type = colorSpace.I1I2I3 then
    let I1 := (p.c0 + p.c1 + p.c2) / 3
    let I2 := (p.c2 - p.c0) / 2
    let I3 := (2 * p.c1 - p.c2 - p.c0) / 4
    if norm then [I1, I2 + 5 / 10, I3 + 5 / 10] else [I1, I2, I3]
  else if type = colorSpace.RGB then
    [p.c0, p.c1, p.c2]
  else
    [p.c0, p.c1, p.c2]

/-- The matrix held by the local variable `output` of `imageConversion` when control leaves
the `switch (type)`. -/
def imageConversionOutput (L : CvLib K) (inputImg : Mat (Vec3 Nat)) (type : colorSpace)
    (norm : Bool) : Mat (List K) :=
  inputImg.map (fun row => row.map (fun p => convertPixel L type norm (scalePixel p)))

end Conversion

/-- How control leaves a `case` section of a `switch`. -/
inductive SwitchExit where
  | viaBreak
  | viaReturn
deriving DecidableEq

/-- The exit of the section of `switch (type)` entered for `type` in `imageConversion`. Each
of the twenty `case` sections and the `default` section ends in `break;`. The only
`return output;` of the function stands after the `break;` of `default`, before the brace
that closes the switch, so no section reaches it. -/
def imageConversionExit (_type : colorSpace) : SwitchExit :=
  SwitchExit.viaBreak

/-- The function `Saliency::imageConversion`: the value it returns. After a `break` control
is at the closing brace of the function body, where nothing is returned. -/
def imageConversion {K : Type} [LinearOrderedField K] (L : CvLib K) (inputImg : Mat (Vec3 Nat))
    (type : colorSpace) (norm : Bool) : Option (Mat (List K)) :=
  match imageConversionExit type with
  | SwitchExit.viaReturn => some (imageConversionOutput L inputImg type norm)
  | SwitchExit.viaBreak => none

/-! ## loadBasis -/

/-- The fields `num_kernels`, `kernel_size`, `num_channels` and the buffer `data` that
`loadBasis` fills. -/
structure Basis where
  num_kernels : Int
  kernel_size : Int
  num_channels : Int
  data : List ℚ
deriving DecidableEq

/-- The result of an arithmetic operation of type `int` (32 bits) with exact value `z`:
undefined when `z` is not an `int`. -/
def asInt (z : Int) : Option Int :=
  if z.natAbs < 2147483648 ∨ z = -2147483648 then some z else none

/-- The product `a*b` of two `int` values. -/
def mulInt (a b : Int) : Option Int :=
  asInt (a * b)

/-- The product `a*b*c*d` of four `int` values, evaluated from the left. -/
def mulInt4 (a b c d : Int) : Option Int :=
  (mulInt a b).bind (fun ab => (mulInt ab c).bind (fun abc => mulInt abc d))

/-- How a call of `loadBasis` ends: it returns with the basis stored in the object, it
leaves by an exception, or its behaviour is undefined. -/
inductive LoadOutcome where
  | loaded (b : Basis)
  | threw
  | undefined
deriving DecidableEq

/-- One call `fread(&temp, sizeof(float), 1, kernel_file)`: the next float of the file is
stored in `temp`; at the end of the file `temp` keeps what it held. -/
def freadFloat (temp : Option ℚ) (floats : List ℚ) : Option ℚ × List ℚ :=
  match floats with
  | [] => (temp, [])
  | t :: rest => (some t, rest)

/-- An assignment of `temp` to an `int` field, as in `num_kernels = temp`: undefined when
`temp` was never written or its value is not an `int`. -/
def headerInt (temp : Option ℚ) : Option Int :=
  match temp with
  | none => none
  | some t => floatToInt t

/-- The function `Saliency::loadBasis`; `file` is the list of the floats of the file, or
`none` when `fopen` finds no file and `fread` is given a null pointer. The three header
fields are read; `new Mat*[num_kernels]` and `new Mat[num_channels]` raise an exception for a
negative length; `data` gets `num_channels*num_kernels*kernel_size*kernel_size` floats
allocated and the `num_kernels*kernel_size*kernel_size*num_channels` floats that one `fread`
finds; the loop then builds every `kernels[n][c]` and `minMaxLoc` reads all its entries. -/
def loadBasis (file : Option (List ℚ)) : LoadOutcome :=
  match file with
  | none => LoadOutcome.undefined
  | some floats =>
    let r0 := freadFloat none floats
    let r1 := freadFloat r0.1 r0.2
    let r2 := freadFloat r1.1 r1.2
    match headerInt r0.1, headerInt r1.1, headerInt r2.1 with
    | some num_kernels, some kernel_size, some num_channels =>
      if num_kernels < 0 then LoadOutcome.threw
      else if 0 < num_kernels ∧ num_channels < 0 then LoadOutcome.threw
      else
        match mulInt4 num_channels num_kernels kernel_size kernel_size,
            mulInt4 num_kernels kernel_size kernel_size num_channels with
        | some _, some count =>
          if 0 < num_channels ∧ 0 < num_kernels ∧
              (kernel_size < 0 ∨ ((r2.2.take count.toNat).length : Int) < count) then
            LoadOutcome.undefined
          else
            LoadOutcome.loaded
              { num_kernels := num_kernels, kernel_size := kernel_size,
                num_channels := num_channels, data := r2.2.take count.toNat }
        | _, _ => LoadOutcome.undefined
    | _, _, _ => LoadOutcome.undefined

/-- The index `c*num_kernels*kernel_size*kernel_size + n*kernel_size*kernel_size` of the first
float of `kernels[n][c]`, as written in `loadBasis`: arithmetic of type `int`. -/
def kernelOffset (num_kernels kernel_size : Int) (c n : Nat) : Option Int :=
  (mulInt4 (c : Int) num_kernels kernel_size kernel_size).bind (fun a =>
    (mulInt (n : Int) kernel_size).bind (fun nk =>
      (mulInt nk kernel_size).bind (fun b => asInt (a + b))))

/-- The index in `data` of the entry at row `r`, column `q` of `kernels[n][c]`: the matrix
`Mat(kernel_size, kernel_size, CV_32FC1, &data[offset])` stores its rows one after another. -/
def kernelIndex (num_kernels kernel_size : Int) (c n r q : Nat) : Option Int :=
  (kernelOffset num_kernels kernel_size c n).map (fun offset =>
    offset + (r : Int) * kernel_size + (q : Int))

/-- A read of `data` at an index: defined for the floats that `fread` stored. -/
def readData (b : Basis) (idx : Int) : Option ℚ :=
  if 0 ≤ idx then b.data[idx.toNat]? else none

/-- The entry at row `r`, column `q` of `kernels[n][c]`. -/
def kernelAt (b : Basis) (n c r q : Nat) : Option ℚ :=
  match kernelIndex b.num_kernels b.kernel_size c n r q with
  | some idx => readData b idx
  | none => none

/-! ## The Saliency object -/

/-- The fields of a `Saliency` object read or written by the embedded functions. `basis`
stands for the fields that a completed `loadBasis` has set and the constructor leaves unset.
`reads` is a ghost field: the paths that `loadBasis` has opened, oldest first. -/
structure SaliencyObj where
  _colors : List String
  num_bins : Int
  gotKernel : Bool
  basis : Option Basis
  reads : List String

/-- The constructor `Saliency::Saliency()`. -/
def init : SaliencyObj :=
  { _colors := ["RGB", "HSV", "Lab", "Luv", "HSI", "HSL", "CMY", "C1C2C3", "COPP", "YCrCb",
      "YIQ", "XYZ", "UVW", "YUV", "OPP", "NOPP", "xyY", "rg", "YES", "I1I2I3"],
    num_bins := 128,
    gotKernel := false,
    basis := none,
    reads := [] }

/-- The failures named by the specification. No statement of `Saliency.cpp` raises one. -/
inductive SaliencyError where
  | UnknownColorSpace
  | InvalidParameter
  | ShapeMismatch
  | CorruptBasis
  | DegenerateInput
deriving DecidableEq

/-- How a service function ends: it returns a value, it is rejected with one of the failures
named by the specification, or its behaviour is undefined. -/
inductive Outcome (α : Type) where
  | returned (value : α)
  | rejected (e : SaliencyError)
  | undefined

/-! ## Sizes in generateAIMMap and runAIM -/

/-- The function `cvRound`: the nearest integer, a tie going to the even one. -/
def cvRound (x : ℚ) : Int :=
  let f := Int.floor x
  let d := x - (f : ℚ)
  if d < 1 / 2 then f
  else if 1 / 2 < d then f + 1
  else if f % 2 = 0 then f else f + 1

/-- The fields of a `GetBackProj` request; the two images are the matrices that
`getImageFromMsg` fills. -/
structure GetBackProjRequest where
  template_image : Mat (Vec3 Nat)
  input_image : Mat (Vec3 Nat)
  num_bins : Int
  normalize : Bool
  color_space : String

/-- One pixel of `Saliency::normalizeImage`: each channel is divided by the sum of the three
channels (by `1/sqrt(3)` when the sum is 0), in `double`, and `floor(255 * quotient)` is
stored. -/
def normalizePixel (L : CvLib ℚ) (p : Vec3 Nat) : Vec3 Nat :=
  let intensity : ℚ :=
    if p.c0 + p.c1 + p.c2 = 0 then roundDouble (1 / L.sqrt 3)
    else ((p.c0 + p.c1 + p.c2 : Nat) : ℚ)
  ⟨(Int.floor (roundDouble (roundDouble ((p.c0 : ℚ) / intensity) * 255))).toNat,
   (Int.floor (roundDouble (roundDouble ((p.c1 : ℚ) / intensity) * 255))).toNat,
   (Int.floor (roundDouble (roundDouble ((p.c2 : ℚ) / intensity) * 255))).toNat⟩

/-- The function `Saliency::normalizeImage`. -/
def normalizeImage (L : CvLib ℚ) (RGBImage : Mat (Vec3 Nat)) : Mat (Vec3 Nat) :=
  RGBImage.map (fun row => row.map (normalizePixel L))

/-- The statement `if (req.num_bins >= 0) this->num_bins = req.num_bins;` of
`GetBackProjMap`. -/
def updateNumBins (obj : SaliencyObj) (num_bins : Int) : SaliencyObj :=
  if num_bins ≥ 0 then { obj with num_bins := num_bins } else obj

/-- The lines `it = find(_colors.begin(), _colors.end(), name); pos = it - _colors.begin();`
of `GetBackProjMap`: the position of the first equal name, or the length of the list. -/
def findColor (colors : List String) (name : String) : Nat :=
  colors.indexOf name

/-- The read `_colors[index]` in the statement of `imageConversion` that prints the name of
the colour space: an element read of a vector, defined only for an index inside it. -/
def colorNameAt (colors : List String) (index : Nat) : Option String :=
  colors[index]?

/-- A call `imageConversion(img, type)` on an object with name list `colors`: the body reads
`_colors[index]` before the switch, then goes on as `imageConversion` describes. -/
def imageConversionCall (L : CvLib ℚ) (colors : List String) (inputImg : Mat (Vec3 Nat))
    (type : colorSpace) (norm : Bool) : Option (Mat (List ℚ)) :=
  match colorNameAt colors type with
  | none => none
  | some _ => imageConversion L inputImg type norm

/-- The array `histSize` of `generateBackProjection`. -/
def histSize (obj : SaliencyObj) : List Int :=
  [obj.num_bins, obj.num_bins, obj.num_bins, obj.num_bins]

/-- The OpenCV functions `calcHist` and `calcBackProject` as `generateBackProjection` calls
them: parameters of the embedding. `calcHist` gets the image, the number of dimensions and
`histSize`, and gives the histogram as the list of its entries. -/
structure HistLib where
  calcHist : Mat (List ℚ) → Nat → List Int → List ℚ
  calcBackProject : Mat (List ℚ) → List ℚ → Mat ℚ

/-! ## runAIM: filter responses and their rescaling -/

/-- The number of columns of a matrix. -/
def matCols {α : Type} (m : Mat α) : Nat :=
  (m.headD []).length

/-- The plane `channels[c]` after `convertTo(channels[c], CV_32FC1)` and `/= 255.0f`; a pixel
of `image` is the list of its 8-bit samples. -/
def channelPlane (image : Mat (List Nat)) (c : Nat) : Mat ℚ :=
  image.map (fun row => row.map (fun p => ((p.getD c 0 : Nat) : ℚ) / 255))

/-- The sample that `filter2D` with `BORDER_CONSTANT` reads at row `i`, column `j`: the
border value `0` outside the matrix. -/
def borderAt (src : Mat ℚ) (i j : Int) : ℚ :=
  if 0 ≤ i ∧ 0 ≤ j then (src.getD i.toNat []).getD j.toNat 0 else 0

/-- The sample at row `i`, column `j` of
`filter2D(src, dst, -1, kernel, Point(-1, -1), 0, BORDER_CONSTANT)` for a square kernel of
side `ksize`: the correlation of `src` with the kernel anchored at its centre `ksize/2`. -/
def filter2DAt (src : Mat ℚ) (kernel : Nat → Nat → ℚ) (ksize : Nat) (i j : Nat) : ℚ :=
  ((List.range ksize).map (fun u =>
    ((List.range ksize).map (fun v =>
      kernel u v *
        borderAt src ((i : Int) + (u : Int) - ((ksize / 2 : Nat) : Int))
          ((j : Int) + (v : Int) - ((ksize / 2 : Nat) : Int)))).sum)).sum

/-- The entry of `kernels[f][c]` used as a weight; an entry that `fread` did not store counts
as `0`. -/
def kernelWeight (b : Basis) (f c : Nat) (u v : Nat) : ℚ :=
  (kernelAt b f c u v).getD 0

/-- The sample at row `i`, column `j` of `aim_temp[f]` before the crop: the sum over the
channels of the filtered planes. -/
def responseAt (b : Basis) (image : Mat (List Nat)) (f i j : Nat) : ℚ :=
  ((List.range b.num_channels.toNat).map (fun c =>
    filter2DAt (channelPlane image c) (kernelWeight b f c) b.kernel_size.toNat i j)).sum

/-- The matrix `aim_temp[f]` after
`colRange(kernel_size/2, cols - (kernel_size-1)/2).rowRange(kernel_size/2, rows - (kernel_size-1)/2)`;
`none` when a range does not lie inside the image. -/
def featureMap (b : Basis) (image : Mat (List Nat)) (f : Nat) : Option (Mat ℚ) :=
  let lo := b.kernel_size / 2
  let hiC := (matCols image : Int) - (b.kernel_size - 1) / 2
  let hiR := (image.length : Int) - (b.kernel_size - 1) / 2
  if 0 ≤ lo ∧ lo ≤ hiC ∧ hiC ≤ (matCols image : Int) ∧ lo ≤ hiR ∧ hiR ≤ (image.length : Int) then
    some ((List.range (hiR - lo).toNat).map (fun a =>
      (List.range (hiC - lo).toNat).map (fun d =>
        responseAt b image f (lo.toNat + a) (lo.toNat + d))))
  else none

/-- The pair `(minVal, maxVal)` stored by `minMaxLoc`; both are `0` for a matrix without
elements. -/
def minMaxLoc (m : Mat ℚ) : ℚ × ℚ :=
  match m.flatten with
  | [] => (0, 0)
  | x :: xs => (xs.foldl min x, xs.foldl max x)

/-- The pair `(min_aim, max_aim)` after the first loop of `runAIM`. -/
def globalRange (b : Basis) (image : Mat (List Nat)) : Option (ℚ × ℚ) :=
  (List.range b.num_kernels.toNat).foldl
    (fun acc f =>
      match acc, featureMap b image f with
      | some aim, some m => some (min (minMaxLoc m).1 aim.1, max (minMaxLoc m).2 aim.2)
      | _, _ => none)
    (some (100000, -1000000))

/-- The statement `m /= d` on a matrix: undefined for the divisor `0`. -/
def divScalar (m : Mat ℚ) (d : ℚ) : Option (Mat ℚ) :=
  if d = 0 then none else some (m.map (fun row => row.map (fun v => v / d)))

/-- The feature maps after the second loop of `runAIM`: `aim_temp[f] -= min_aim` and
`aim_temp[f] /= (max_aim - min_aim)` for every `f`. -/
def rescaleFeatures (b : Basis) (image : Mat (List Nat)) : Option (List (Mat ℚ)) :=
  match globalRange b image with
  | none => none
  | some aim =>
    (List.range b.num_kernels.toNat).mapM (fun f =>
      match featureMap b image f with
      | none => none
      | some m => divScalar (m.map (fun row => row.map (fun v => v - aim.1))) (aim.2 - aim.1))

/-- The factor `255/(maxVal-minVal)` given to `sm.convertTo(adj_sm, CV_8UC1, ...)`: undefined
when the surface `sm` has range `0`. -/
def viewScale (sm : Mat ℚ) : Option ℚ :=
  if (minMaxLoc sm).2 - (minMaxLoc sm).1 = 0 then none
  else some (255 / ((minMaxLoc sm).2 - (minMaxLoc sm).1))

/-- The function `Saliency::normalizeHistogram`: `histogram -= minScale` and
`histogram *= 255/(maxScale-minScale)`; undefined when the range is 0. -/
def normalizeHistogram (histogram : List ℚ) : Option (List ℚ) :=
  if (minMaxLoc [histogram]).2 - (minMaxLoc [histogram]).1 = 0 then none
  else some (histogram.map (fun v =>
    (v - (minMaxLoc [histogram]).1)
      * (255 / ((minMaxLoc [histogram]).2 - (minMaxLoc [histogram]).1))))

/-- The function `Saliency::generateBackProjection`: the histogram of the template with
`histSize` bins per channel is normalised and back-projected on the image; a positive sample
becomes 255 and any other sample 0. -/
def generateBackProjection (H : HistLib) (obj : SaliencyObj) (imageCV temp : Mat (List ℚ)) :
    Option (Mat Nat) :=
  match normalizeHistogram (H.calcHist temp ((imageCV.headD []).headD []).length
      (histSize obj)) with
  | none => none
  | some templateHistogram =>
    some ((H.calcBackProject imageCV templateHistogram).map (fun row =>
      row.map (fun v => if 0 < v then 255 else 0)))

/-- The statements of `Saliency::GetBackProjMap` that follow the update of `num_bins`:
normalisation, colour-space lookup, the two calls of `imageConversion` with
`static_cast<colorSpace>(pos)`, and `generateBackProjection`. `normDefault` is the default
value of the parameter `norm`, which `Saliency.h` declares. The value returned is the
object with the image of the response. -/
def backProjectAfterBins (L : CvLib ℚ) (H : HistLib) (normDefault : Bool) (obj : SaliencyObj)
    (req : GetBackProjRequest) : Outcome (SaliencyObj × Mat Nat) :=
  match imageConversionCall L obj._colors
      (if req.normalize then normalizeImage L req.input_image else req.input_image)
      (findColor obj._colors req.color_space) normDefault with
  | none => Outcome.undefined
  | some imageInput =>
    match imageConversionCall L obj._colors (normalizeImage L req.template_image)
        (findColor obj._colors req.color_space) normDefault with
    | none => Outcome.undefined
    | some tempImg =>
      match generateBackProjection H obj imageInput tempImg with
      | none => Outcome.undefined
      | some backprojImg => Outcome.returned (obj, backprojImg)

/-- The function `Saliency::GetBackProjMap`. -/
def GetBackProjMap (L : CvLib ℚ) (H : HistLib) (normDefault : Bool) (obj : SaliencyObj)
    (req : GetBackProjRequest) : Outcome (SaliencyObj × Mat Nat) :=
  backProjectAfterBins L H normDefault (updateNumBins obj req.num_bins) req

/-! ## generateAIMMap: the basis held by the object -/

/-- The bin in which `calcHist(&aim_temp[f], 1, 0, Mat(), hist, 1, histSize, range, true, false)`
with `histSize = {256}` and `range = {0, 1}` counts a sample, as documented by OpenCV for a
uniform histogram: bin `floor(v*256)` for a sample inside the range, whose upper bound is
exclusive; a sample outside the range is counted in no bin. -/
def calcHistBin (v : ℚ) : Option Nat :=
  if 0 ≤ Int.floor (v * 256) ∧ Int.floor (v * 256) < 256 then
    some (Int.floor (v * 256)).toNat
  else none

/-- The histogram `hist` that `calcHist` builds for one feature map: 256 counts. -/
def calcHist (m : Mat ℚ) : List Nat :=
  (List.range 256).map (fun b => (m.flatten.filter (fun v => calcHistBin v = some b)).length)

/-- The C function `round`: the nearest integer, a tie going away from zero. -/
def roundHalfAway (x : ℚ) : Int :=
  if 0 ≤ x then Int.floor (x + 1 / 2) else Int.ceil (x - 1 / 2)

/-- The index `idx = round(aim_temp[f].at<float>(i, j) * (histSize[0]-1))` of `runAIM`. -/
def lookupIdx (v : ℚ) : Int :=
  roundHalfAway (v * (256 - 1))

/-- The read `hist.at<float>(idx)`: defined for an index inside the histogram. -/
def histAt (hist : List Nat) (idx : Int) : Option Nat :=
  if 0 ≤ idx ∧ idx < (hist.length : Int) then hist[idx.toNat]? else none

/-- The value `hist.at<float>(idx)/div` that `runAIM` takes as the probability of a pixel with
sample `v`; `div` is the number of pixels of a feature map. -/
def lookupProbability (hist : List Nat) (div : ℚ) (v : ℚ) : Option ℚ :=
  (histAt hist (lookupIdx v)).map (fun count => (count : ℚ) / div)

/-- The statement `sm.at<float>(i,j) -= log(hist.at<float>(idx)/div+0.000001f)` for all pixels
of one feature map `m`; the function `log` is a parameter. -/
def subtractLogProbability (log : ℚ → ℚ) (div : ℚ) (sm m : Mat ℚ) : Option (Mat ℚ) :=
  (List.zip sm m).mapM (fun rows =>
    (List.zip rows.1 rows.2).mapM (fun sv =>
      (lookupProbability (calcHist m) div sv.2).map (fun pr =>
        sv.1 - log (pr + 1 / 1000000))))

/-- The conversion `saturate_cast<uchar>` of a float sample: rounded by `cvRound`, then
clamped to 0..255. -/
def saturateUchar (x : ℚ) : Nat :=
  if cvRound x < 0 then 0 else if 255 < cvRound x then 255 else (cvRound x).toNat

/-- The call `src.convertTo(dst, CV_8UC1, alpha, beta)`, as documented by OpenCV: each sample
becomes `saturate_cast<uchar>(alpha*sample + beta)`. -/
def convertTo8U (src : Mat ℚ) (alpha beta : ℚ) : Mat Nat :=
  src.map (fun row => row.map (fun v => saturateUchar (alpha * v + beta)))

/-- The matrix `adj_sm` after `minMaxLoc(sm, &minVal, &maxVal)` and
`sm.convertTo(adj_sm, CV_8UC1, 255/(maxVal-minVal), -minVal)`. -/
def viewSurface (sm : Mat ℚ) : Option (Mat Nat) :=
  match viewScale sm with
  | none => none
  | some alpha => some (convertTo8U sm alpha (-(minMaxLoc sm).1))

/-- The affine rescale of a sample onto [0, 255] as the specification words it:
`round(255*(v - m)/(M - m))`, kept within 0..255. -/
def affineRescaleSpec (m M v : ℚ) : Nat :=
  saturateUchar (255 * (v - m) / (M - m))

/-! ## Example inputs -/

/-- A basis with 1 kernel, kernel size 3, 1 channel and all-zero weights: the result of
`loadBasis` on the header `1, 3, 1` followed by nine zeros. -/
def zeroBasis : Basis :=
  { num_kernels := 1, kernel_size := 3, num_channels := 1, data := List.replicate 9 0 }

/-- A basis with 1 kernel, kernel size 1, 1 channel and the single weight 1. -/
def unitBasis : Basis :=
  { num_kernels := 1, kernel_size := 1, num_channels := 1, data := [1] }

/-- The one-channel 8-bit image of one row with the samples 0, 99 and 100. -/
def rampImage : Mat (List Nat) :=
  [[[0], [99], [100]]]

/-! ## Theorems -/

/-! ### Floating-point rounding -/

theorem roundHalfEven_intCast (n : Int) : roundHalfEven (n : ℚ) = n := by
  unfold roundHalfEven
  simp only [Int.floor_intCast, sub_self]
  rw [if_pos (by norm_num)]

theorem roundBinary_dyadic (p : Nat) (m j : Int) (hm : |m| < 2 ^ p) :
    roundBinary p ((m : ℚ) * (2 : ℚ) ^ j) = (m : ℚ) * (2 : ℚ) ^ j := by
  by_cases hm0 : m = 0
  · subst hm0
    unfold roundBinary
    simp
  have h2 : (0 : ℚ) < (2 : ℚ) ^ j := by positivity
  have hx0 : (m : ℚ) * (2 : ℚ) ^ j ≠ 0 := by
    apply mul_ne_zero
    · exact_mod_cast hm0
    · exact ne_of_gt h2
  have habs : |(m : ℚ) * (2 : ℚ) ^ j| = (|m| : Int) * (2 : ℚ) ^ j := by
    rw [abs_mul, abs_of_pos h2]
    push_cast
    rfl
  have hpos : (0 : ℚ) < |(m : ℚ) * (2 : ℚ) ^ j| := abs_pos.mpr hx0
  have hle := Int.zpow_log_le_self (b := 2) (by norm_num) hpos
  have hlt : |(m : ℚ) * (2 : ℚ) ^ j| < (2 : ℚ) ^ ((p : Int) + j) := by
    rw [habs, zpow_add₀ (by norm_num : (2 : ℚ) ≠ 0)]
    apply mul_lt_mul_of_pos_right _ h2
    have : ((|m| : Int) : ℚ) < ((2 ^ p : Int) : ℚ) := by exact_mod_cast hm
    simpa using this
  have he : Int.log 2 |(m : ℚ) * (2 : ℚ) ^ j| < (p : Int) + j := by
    have h := lt_of_le_of_lt hle hlt
    have h' : ((2 : ℕ) : ℚ) ^ Int.log 2 |(m : ℚ) * (2 : ℚ) ^ j|
        < ((2 : ℕ) : ℚ) ^ ((p : Int) + j) := by
      simpa using h
    exact (zpow_lt_zpow_iff_right₀ (by norm_num : (1 : ℚ) < ((2 : ℕ) : ℚ))).mp h'
  obtain ⟨d, hd⟩ : ∃ d : Nat,
      j = Int.log 2 |(m : ℚ) * (2 : ℚ) ^ j| - ((p : Int) - 1) + (d : Int) :=
    ⟨(j - (Int.log 2 |(m : ℚ) * (2 : ℚ) ^ j| - ((p : Int) - 1))).toNat, by omega⟩
  have hq : (0 : ℚ) < (2 : ℚ) ^ (Int.log 2 |(m : ℚ) * (2 : ℚ) ^ j| - ((p : Int) - 1)) := by
    positivity
  have hdiv : (m : ℚ) * (2 : ℚ) ^ j
        / (2 : ℚ) ^ (Int.log 2 |(m : ℚ) * (2 : ℚ) ^ j| - ((p : Int) - 1))
      = ((m * 2 ^ d : Int) : ℚ) := by
    rw [div_eq_iff (ne_of_gt hq)]
    push_cast
    rw [mul_assoc, ← zpow_natCast, ← zpow_add₀ (by norm_num : (2 : ℚ) ≠ 0)]
    congr 2
    omega
  unfold roundBinary
  rw [if_neg hx0, hdiv, roundHalfEven_intCast, ← hdiv]
  exact div_mul_cancel₀ _ (ne_of_gt hq)

theorem roundBinary_intCast (p : Nat) (m : Int) (hm : |m| < 2 ^ p) :
    roundBinary p (m : ℚ) = (m : ℚ) := by
  have h := roundBinary_dyadic p m 0 hm
  simpa using h

theorem roundFloat_small_int (m : Int) (hm : |m| < 2 ^ 24) : roundFloat (m : ℚ) = (m : ℚ) :=
  roundBinary_intCast 24 m hm

theorem roundDouble_small_int (m : Int) (hm : |m| < 2 ^ 53) : roundDouble (m : ℚ) = (m : ℚ) :=
  roundBinary_intCast 53 m hm

theorem roundDouble_half : roundDouble (1 / 2) = 1 / 2 := by
  have h := roundBinary_dyadic 53 1 (-1) (by norm_num)
  unfold roundDouble
  norm_num at h
  simpa using h

theorem floatToInt_intCast (z : Int) (h : z.natAbs < 2147483648) :
    floatToInt (z : ℚ) = some z := by
  have ht : (if 0 ≤ (z : ℚ) then Int.floor (z : ℚ) else Int.ceil (z : ℚ)) = z := by
    split
    · exact Int.floor_intCast z
    · exact Int.ceil_intCast z
  unfold floatToInt
  rw [ht, if_pos (Or.inl h)]

theorem roundHalfEven_of_near (x : ℚ) (N : Int) (h1 : (N : ℚ) - 1 / 2 < x)
    (h2 : x < (N : ℚ) + 1 / 2) : roundHalfEven x = N := by
  have hf1 : N - 1 ≤ Int.floor x := by
    apply Int.le_floor.mpr
    push_cast
    linarith
  have hf2 : Int.floor x < N + 1 := by
    apply Int.floor_lt.mpr
    push_cast
    linarith
  have hfl : (Int.floor x : ℚ) ≤ x := Int.floor_le x
  have hfu : x < (Int.floor x : ℚ) + 1 := Int.lt_floor_add_one x
  rcases (by omega : Int.floor x = N ∨ Int.floor x = N - 1) with hf | hf
  · unfold roundHalfEven
    simp only [hf]
    rw [if_pos (by linarith)]
  · unfold roundHalfEven
    simp only [hf]
    rw [hf] at hfu
    push_cast at hfu ⊢
    rw [if_neg (by linarith), if_pos (by linarith)]
    ring

theorem roundBinary_of_near (p : Nat) (x : ℚ) (e N : Int) (hpos : 0 < x)
    (hlo : (2 : ℚ) ^ e ≤ x) (hhi : x < (2 : ℚ) ^ (e + 1))
    (h1 : (N : ℚ) - 1 / 2 < x / (2 : ℚ) ^ (e - ((p : Int) - 1)))
    (h2 : x / (2 : ℚ) ^ (e - ((p : Int) - 1)) < (N : ℚ) + 1 / 2) :
    roundBinary p x = (N : ℚ) * (2 : ℚ) ^ (e - ((p : Int) - 1)) := by
  have habs : |x| = x := abs_of_pos hpos
  have hlog : Int.log 2 |x| = e := by
    rw [habs]
    have ha : e ≤ Int.log 2 x :=
      (Int.zpow_le_iff_le_log (b := 2) (by norm_num) hpos).mp (by simpa using hlo)
    have hb : Int.log 2 x < e + 1 :=
      (Int.lt_zpow_iff_log_lt (b := 2) (by norm_num) hpos).mp (by simpa using hhi)
    omega
  unfold roundBinary
  rw [if_neg (ne_of_gt hpos), hlog, roundHalfEven_of_near _ N h1 h2]

/-! ### percentileThreshold -/

theorem sortAscending_length (xs : List Nat) : (sortAscending xs).length = xs.length := by
  unfold sortAscending
  exact List.length_insertionSort _ xs

theorem sortAscending_sorted (xs : List Nat) :
    List.Sorted (fun a b => a ≤ b) (sortAscending xs) := by
  unfold sortAscending
  exact List.sorted_insertionSort (fun a b => a ≤ b) xs

theorem sortAscending_perm (xs : List Nat) : (sortAscending xs).Perm xs := by
  unfold sortAscending
  exact List.perm_insertionSort (fun a b => a ≤ b) xs

theorem atRow_inside (row : List Nat) (idx : Int) (h0 : 0 ≤ idx)
    (h1 : idx < (row.length : Int)) : ∃ v, atRow row idx = some v ∧ row[idx.toNat]? = some v := by
  have hlt : idx.toNat < row.length := by omega
  refine ⟨row[idx.toNat], ?_, List.getElem?_eq_getElem hlt⟩
  unfold atRow
  rw [if_pos ⟨h0, h1⟩]
  exact List.getElem?_eq_getElem hlt

theorem atRow_outside (row : List Nat) (idx : Int)
    (h : idx < 0 ∨ (row.length : Int) ≤ idx) : atRow row idx = none := by
  unfold atRow
  rw [if_neg]
  omega

theorem atRowFloat_of_index (row : List Nat) (x : ℚ) (idx : Int)
    (h : floatToInt x = some idx) : atRowFloat row x = atRow row idx := by
  unfold atRowFloat
  rw [h]

theorem percentileCutoff_of_reads (salMap : List Nat) (percentile : ℚ) (h g : Nat)
    (hn : (sortAscending salMap).length + 1 < 2147483648)
    (hh : atRowFloat (sortAscending salMap)
      (roundFloat ((modfInt (interpIndex (sortAscending salMap).length percentile) : ℚ) - 1))
        = some h)
    (hg : atRowFloat (sortAscending salMap)
      (modfInt (interpIndex (sortAscending salMap).length percentile) : ℚ) = some g) :
    percentileCutoff salMap percentile =
      some (interpolate (modfFrac (interpIndex (sortAscending salMap).length percentile)) h g) := by
  unfold percentileCutoff
  dsimp only
  rw [if_pos hn, hh, hg]

theorem percentileCutoff_of_read_fails (salMap : List Nat) (percentile : ℚ)
    (h : atRowFloat (sortAscending salMap)
        (roundFloat ((modfInt (interpIndex (sortAscending salMap).length percentile) : ℚ) - 1))
          = none ∨
      atRowFloat (sortAscending salMap)
        (modfInt (interpIndex (sortAscending salMap).length percentile) : ℚ) = none) :
    percentileCutoff salMap percentile = none := by
  unfold percentileCutoff
  dsimp only
  split
  · rcases h with h | h
    · rw [h]
    · rw [h]
      cases atRowFloat (sortAscending salMap)
        (roundFloat ((modfInt (interpIndex (sortAscending salMap).length percentile) : ℚ) - 1))
        <;> rfl
  · rfl

theorem threshToZero_le (x : ℚ) (v : Nat) (h : (v : ℚ) ≤ x) : threshToZero x v = 0 := by
  unfold threshToZero
  rw [if_neg (not_lt.mpr h)]

theorem threshToZero_gt (x : ℚ) (v : Nat) (h : x < (v : ℚ)) : threshToZero x v = v := by
  unfold threshToZero
  rw [if_pos h]

theorem percentileThreshold_of_cutoff (salMap : List Nat) (percentile x : ℚ)
    (h : percentileCutoff salMap percentile = some x) :
    percentileThreshold salMap percentile = some (salMap.map (threshToZero x)) := by
  unfold percentileThreshold
  rw [h]

theorem percentileThreshold_of_no_cutoff (salMap : List Nat) (percentile : ℚ)
    (h : percentileCutoff salMap percentile = none) :
    percentileThreshold salMap percentile = none := by
  unfold percentileThreshold
  rw [h]

/-- C1 (amended): for every 8-bit map of fewer than `2^31 - 1` pixels and every finite
percentile for which the two column indices that the code reads, `kPart-1` and `kPart` as computed in
`float`, are inside the sorted row: the cutoff is the `float` value
`x = (1-f)*sorted[k-1] + f*sorted[k]`, where the row read is the ascending rearrangement of
the map; the result has one pixel per input pixel, every pixel whose value is at most `x`
(so also a pixel equal to `x`) becomes `0`, and every pixel whose value is strictly above `x`
keeps its value. -/
theorem percentileThreshold_keeps_strictly_above (salMap : List Nat) (percentile : ℚ)
    (i1 i2 : Int) (_h8 : ∀ v ∈ salMap, v < 256) (hn : salMap.length + 1 < 2147483648)
    (hi1 : floatToInt (roundFloat ((modfInt (interpIndex salMap.length percentile) : ℚ) - 1))
      = some i1)
    (hi2 : floatToInt (modfInt (interpIndex salMap.length percentile) : ℚ) = some i2)
    (h1 : 0 ≤ i1 ∧ i1 < (salMap.length : Int)) (h2 : 0 ≤ i2 ∧ i2 < (salMap.length : Int)) :
    ∃ (h g : Nat) (out : List Nat),
      (sortAscending salMap)[i1.toNat]? = some h ∧
      (sortAscending salMap)[i2.toNat]? = some g ∧
      List.Sorted (fun a b => a ≤ b) (sortAscending salMap) ∧
      (sortAscending salMap).Perm salMap ∧
      percentileCutoff salMap percentile =
        some (interpolate (modfFrac (interpIndex salMap.length percentile)) h g) ∧
      percentileThreshold salMap percentile = some out ∧
      out.length = salMap.length ∧
      ∀ (i : Nat) (v : Nat), salMap[i]? = some v →
        (((v : ℚ) ≤ interpolate (modfFrac (interpIndex salMap.length percentile)) h g →
            out[i]? = some 0) ∧
         (interpolate (modfFrac (interpIndex salMap.length percentile)) h g < (v : ℚ) →
            out[i]? = some v)) := by
  have hlen := sortAscending_length salMap
  obtain ⟨h, hh, hh'⟩ := atRow_inside (sortAscending salMap) i1 h1.1 (by rw [hlen]; exact h1.2)
  obtain ⟨g, hg, hg'⟩ := atRow_inside (sortAscending salMap) i2 h2.1 (by rw [hlen]; exact h2.2)
  have hcut := percentileCutoff_of_reads salMap percentile h g (by rw [hlen]; exact hn)
    (by rw [hlen, atRowFloat_of_index _ _ i1 hi1]; exact hh)
    (by rw [hlen, atRowFloat_of_index _ _ i2 hi2]; exact hg)
  rw [hlen] at hcut
  refine ⟨h, g, salMap.map (threshToZero
    (interpolate (modfFrac (interpIndex salMap.length percentile)) h g)), hh', hg',
    sortAscending_sorted salMap, sortAscending_perm salMap, hcut, ?_, ?_, ?_⟩
  · exact percentileThreshold_of_cutoff salMap percentile _ hcut
  · exact List.length_map _ _
  · intro i v hv
    rw [List.getElem?_map, hv]
    constructor
    · intro hle
      rw [Option.map_some', threshToZero_le _ _ hle]
    · intro hgt
      rw [Option.map_some', threshToZero_gt _ _ hgt]

theorem interpIndex_three_fifty : interpIndex 3 50 = 2 := by
  have e1 : (50 : ℚ) / 100 = 1 / 2 := by norm_num
  have e2 : (1 : ℚ) / 2 * (((3 : Nat) : ℚ) + 1) = ((2 : Int) : ℚ) := by norm_num
  unfold interpIndex
  rw [e1, roundDouble_half, e2, roundDouble_small_int 2 (by norm_num),
    roundFloat_small_int 2 (by norm_num)]
  norm_num

theorem interpIndex_one_zero : interpIndex 1 0 = 0 := by
  have e1 : (0 : ℚ) / 100 = ((0 : Int) : ℚ) := by norm_num
  have e2 : ((0 : Int) : ℚ) * (((1 : Nat) : ℚ) + 1) = ((0 : Int) : ℚ) := by norm_num
  unfold interpIndex
  rw [e1, roundDouble_small_int 0 (by norm_num), e2, roundDouble_small_int 0 (by norm_num),
    roundFloat_small_int 0 (by norm_num)]
  norm_num

theorem interpIndex_one_hundred : interpIndex 1 100 = 2 := by
  have e1 : (100 : ℚ) / 100 = ((1 : Int) : ℚ) := by norm_num
  have e2 : ((1 : Int) : ℚ) * (((1 : Nat) : ℚ) + 1) = ((2 : Int) : ℚ) := by norm_num
  unfold interpIndex
  rw [e1, roundDouble_small_int 1 (by norm_num), e2, roundDouble_small_int 2 (by norm_num),
    roundFloat_small_int 2 (by norm_num)]
  norm_num

theorem modfInt_two : modfInt 2 = 2 := by decide

theorem modfInt_zero : modfInt 0 = 0 := by decide

theorem modfFrac_two : modfFrac 2 = 0 := by
  unfold modfFrac
  rw [modfInt_two]
  norm_num

theorem interpolate_zero (h g : Nat) (hh : h < 2 ^ 24) : interpolate 0 h g = (h : ℚ) := by
  have e1 : (1 : ℚ) - 0 = ((1 : Int) : ℚ) := by norm_num
  have e2 : ((1 : Int) : ℚ) * (h : ℚ) = ((h : Int) : ℚ) := by push_cast; ring
  have e3 : (0 : ℚ) * (g : ℚ) = ((0 : Int) : ℚ) := by norm_num
  have e4 : ((h : Int) : ℚ) + ((0 : Int) : ℚ) = ((h : Int) : ℚ) := by norm_num
  have hh' : |(h : Int)| < 2 ^ 24 := by
    rw [abs_of_nonneg (Int.natCast_nonneg h)]
    exact_mod_cast hh
  unfold interpolate
  rw [e1, roundFloat_small_int 1 (by norm_num), e2, roundFloat_small_int h hh', e3,
    roundFloat_small_int 0 (by norm_num), e4, roundFloat_small_int h hh']
  push_cast
  rfl

theorem index_below_two : floatToInt (roundFloat (((2 : Int) : ℚ) - 1)) = some 1 := by
  have e : ((2 : Int) : ℚ) - 1 = ((1 : Int) : ℚ) := by norm_num
  rw [e, roundFloat_small_int 1 (by norm_num)]
  exact floatToInt_intCast 1 (by decide)

theorem index_below_zero : floatToInt (roundFloat (((0 : Int) : ℚ) - 1)) = some (-1) := by
  have e : ((0 : Int) : ℚ) - 1 = ((-1 : Int) : ℚ) := by norm_num
  rw [e, roundFloat_small_int (-1) (by norm_num)]
  exact floatToInt_intCast (-1) (by decide)

/-- Witness of C1 (amended) on the map `[3, 9, 5]` at percentile 50: `ip = 2`, the reads are
at the indices 1 and 2 of the sorted row `[3, 5, 9]`, the cutoff is 5, and the result is
`[0, 9, 0]`. -/
theorem percentileThreshold_keeps_strictly_above_witness :
    ([3, 9, 5] : List Nat).length + 1 < 2147483648 ∧
    floatToInt (roundFloat ((modfInt (interpIndex [3, 9, 5].length 50) : ℚ) - 1)) = some 1 ∧
    floatToInt (modfInt (interpIndex [3, 9, 5].length 50) : ℚ) = some 2 ∧
    ∃ out : List Nat, percentileThreshold [3, 9, 5] 50 = some out ∧ out.length = 3 ∧
      out[0]? = some 0 ∧ out[1]? = some 9 ∧ out[2]? = some 0 := by
  have hl : ([3, 9, 5] : List Nat).length = 3 := rfl
  have hk : modfInt (interpIndex [3, 9, 5].length 50) = 2 := by
    rw [hl, interpIndex_three_fifty, modfInt_two]
  have hf : modfFrac (interpIndex [3, 9, 5].length 50) = 0 := by
    rw [hl, interpIndex_three_fifty, modfFrac_two]
  have hn : ([3, 9, 5] : List Nat).length + 1 < 2147483648 := by decide
  have hi1 : floatToInt (roundFloat ((modfInt (interpIndex [3, 9, 5].length 50) : ℚ) - 1))
      = some 1 := by
    rw [hk]
    exact index_below_two
  have hi2 : floatToInt (modfInt (interpIndex [3, 9, 5].length 50) : ℚ) = some 2 := by
    rw [hk]
    exact floatToInt_intCast 2 (by decide)
  obtain ⟨h, g, out, hh, hg, _, _, _, hout, hlen, hpix⟩ :=
    percentileThreshold_keeps_strictly_above [3, 9, 5] 50 1 2 (by decide) hn hi1 hi2
      ⟨by decide, by decide⟩ ⟨by decide, by decide⟩
  have hs : sortAscending [3, 9, 5] = [3, 5, 9] := by decide
  rw [hs] at hh hg
  have h5 : h = 5 := by
    have e : ([3, 5, 9] : List Nat)[(1 : Int).toNat]? = some 5 := rfl
    rw [e] at hh
    exact (Option.some.inj hh).symm
  have g9 : g = 9 := by
    have e : ([3, 5, 9] : List Nat)[(2 : Int).toNat]? = some 9 := rfl
    rw [e] at hg
    exact (Option.some.inj hg).symm
  subst h5
  subst g9
  rw [hf, interpolate_zero 5 9 (by norm_num)] at hpix
  refine ⟨hn, hi1, hi2, out, hout, hlen, ?_, ?_, ?_⟩
  · exact (hpix 0 3 rfl).1 (by norm_num)
  · exact (hpix 1 9 rfl).2 (by norm_num)
  · exact (hpix 2 5 rfl).1 (by norm_num)

theorem percentileCutoff_fives : percentileCutoff [5, 5, 5] 50 = some 5 := by
  have hs : sortAscending [5, 5, 5] = [5, 5, 5] := by decide
  have hlen : (sortAscending [5, 5, 5]).length = 3 := by rw [hs]; rfl
  have h1 : atRow [5, 5, 5] 1 = some 5 := by decide
  have h2 : atRow [5, 5, 5] 2 = some 5 := by decide
  rw [percentileCutoff_of_reads [5, 5, 5] 50 5 5 (by rw [hlen]; decide)
    (by
      rw [hlen, interpIndex_three_fifty, modfInt_two, hs,
        atRowFloat_of_index _ _ 1 index_below_two]
      exact h1)
    (by
      rw [hlen, interpIndex_three_fifty, modfInt_two, hs,
        atRowFloat_of_index _ _ 2 (floatToInt_intCast 2 (by decide))]
      exact h2)]
  rw [hlen, interpIndex_three_fifty, modfFrac_two, interpolate_zero 5 5 (by norm_num)]
  norm_num

/-- C1 (counterexample): on the map `[5, 5, 5]` at percentile 50 the cutoff is `x = 5`; the
pixels equal `x`, so none is strictly below it, and yet all of them become `0`. The claim
that a pixel not strictly below `x` keeps its value is false there. -/
theorem percentileThreshold_zeroes_pixel_equal_to_cutoff :
    percentileCutoff [5, 5, 5] 50 = some 5 ∧
    percentileThreshold [5, 5, 5] 50 = some [0, 0, 0] ∧
    ¬ (∀ (x : ℚ) (out : List Nat), percentileCutoff [5, 5, 5] 50 = some x →
        percentileThreshold [5, 5, 5] 50 = some out →
        ∀ (i : Nat) (v : Nat), ([5, 5, 5] : List Nat)[i]? = some v →
          (((v : ℚ) < x → out[i]? = some 0) ∧ (x ≤ (v : ℚ) → out[i]? = some v))) := by
  have hout : percentileThreshold [5, 5, 5] 50 = some [0, 0, 0] := by
    rw [percentileThreshold_of_cutoff [5, 5, 5] 50 5 percentileCutoff_fives]
    simp [threshToZero]
  refine ⟨percentileCutoff_fives, hout, ?_⟩
  intro hall
  have h := (hall 5 [0, 0, 0] percentileCutoff_fives hout 0 5 rfl).2 (by norm_num)
  simp at h

theorem interpIndex_rounds_to_two : interpIndex 4 (40 - 1 / 134217728) = 2 := by
  have r1 : roundDouble ((40 - 1 / 134217728) / 100)
      = (7205759402450616 : ℚ) / 18014398509481984 := by
    unfold roundDouble
    rw [roundBinary_of_near 53 _ (-2) 7205759402450616 (by norm_num) (by norm_num)
      (by norm_num) (by norm_num) (by norm_num)]
    norm_num
  have r2 : roundDouble ((7205759402450616 : ℚ) / 18014398509481984 * (((4 : Nat) : ℚ) + 1))
      = (9007199253063270 : ℚ) / 4503599627370496 := by
    unfold roundDouble
    rw [roundBinary_of_near 53 _ 0 9007199253063270 (by norm_num) (by norm_num)
      (by norm_num) (by norm_num) (by norm_num)]
    norm_num
  have r3 : roundFloat ((9007199253063270 : ℚ) / 4503599627370496) = 2 := by
    unfold roundFloat
    rw [roundBinary_of_near 24 _ 0 16777216 (by norm_num) (by norm_num)
      (by norm_num) (by norm_num) (by norm_num)]
    norm_num
  unfold interpIndex
  rw [r1, r2, r3]

/-- The percentile `40 - 2^-27` on the four-pixel map `[3, 9, 5, 7]`: the exact value of
`(percentile/100)*(n+1)` is just below 2, but the `float` variable `ip` holds `2`, so
`kPart = 2` and `fPart = 0`; the reads are `sorted[1] = 5` and `sorted[2] = 7`, the cutoff is
5, and the pixel 5 becomes 0. -/
theorem percentileThreshold_float_ip :
    percentileCutoff [3, 9, 5, 7] (40 - 1 / 134217728) = some 5 ∧
    percentileThreshold [3, 9, 5, 7] (40 - 1 / 134217728) = some [0, 9, 0, 7] := by
  have hs : sortAscending [3, 9, 5, 7] = [3, 5, 7, 9] := by decide
  have hlen : (sortAscending [3, 9, 5, 7]).length = 4 := by rw [hs]; rfl
  have h1 : atRow [3, 5, 7, 9] 1 = some 5 := by decide
  have h2 : atRow [3, 5, 7, 9] 2 = some 7 := by decide
  have hcut : percentileCutoff [3, 9, 5, 7] (40 - 1 / 134217728) = some 5 := by
    rw [percentileCutoff_of_reads [3, 9, 5, 7] (40 - 1 / 134217728) 5 7
      (by rw [hlen]; decide)
      (by
        rw [hlen, interpIndex_rounds_to_two, modfInt_two, hs,
          atRowFloat_of_index _ _ 1 index_below_two]
        exact h1)
      (by
        rw [hlen, interpIndex_rounds_to_two, modfInt_two, hs,
          atRowFloat_of_index _ _ 2 (floatToInt_intCast 2 (by decide))]
        exact h2)]
    rw [hlen, interpIndex_rounds_to_two, modfFrac_two, interpolate_zero 5 7 (by norm_num)]
    norm_num
  refine ⟨hcut, ?_⟩
  rw [percentileThreshold_of_cutoff _ _ 5 hcut]
  simp [threshToZero]
  norm_num

/-- C8 (the code at the failing inputs): on the one-pixel map `[7]`, percentile 0 gives
`k = 0` and the read of `sorted[k-1]` is at index `-1`; percentile 100 gives `k = 2` and
both reads are at indices `1` and `2`, past the last index `0`. No index is clamped: each of
these reads is outside the sorted row, and `percentileThreshold` has no defined result. -/
theorem percentileThreshold_reads_outside_row :
    modfInt (interpIndex 1 0) - 1 = -1 ∧
    atRow (sortAscending [7]) (modfInt (interpIndex 1 0) - 1) = none ∧
    percentileThreshold [7] 0 = none ∧
    modfInt (interpIndex 1 100) = 2 ∧
    atRow (sortAscending [7]) (modfInt (interpIndex 1 100) - 1) = none ∧
    atRow (sortAscending [7]) (modfInt (interpIndex 1 100)) = none ∧
    percentileThreshold [7] 100 = none := by
  have hs : sortAscending [7] = [7] := by decide
  have hlen : (sortAscending [7]).length = 1 := by rw [hs]; rfl
  have hk0 : modfInt (interpIndex 1 0) = 0 := by rw [interpIndex_one_zero, modfInt_zero]
  have hk1 : modfInt (interpIndex 1 100) = 2 := by rw [interpIndex_one_hundred, modfInt_two]
  have r0 : atRow (sortAscending [7]) (modfInt (interpIndex 1 0) - 1) = none := by
    rw [hk0, hs]; decide
  have r1 : atRow (sortAscending [7]) (modfInt (interpIndex 1 100) - 1) = none := by
    rw [hk1, hs]; decide
  have r2 : atRow (sortAscending [7]) (modfInt (interpIndex 1 100)) = none := by
    rw [hk1, hs]; decide
  have f0 : atRowFloat (sortAscending [7])
      (roundFloat ((modfInt (interpIndex (sortAscending [7]).length 0) : ℚ) - 1)) = none := by
    rw [hlen, hk0, atRowFloat_of_index _ _ (-1) index_below_zero, hs]
    decide
  have f1 : atRowFloat (sortAscending [7])
      (roundFloat ((modfInt (interpIndex (sortAscending [7]).length 100) : ℚ) - 1)) = none := by
    rw [hlen, hk1, atRowFloat_of_index _ _ 1 index_below_two, hs]
    decide
  refine ⟨by rw [hk0]; decide, r0, ?_, hk1, r1, r2, ?_⟩
  · exact percentileThreshold_of_no_cutoff [7] 0
      (percentileCutoff_of_read_fails [7] 0 (Or.inl f0))
  · exact percentileThreshold_of_no_cutoff [7] 100
      (percentileCutoff_of_read_fails [7] 100 (Or.inl f1))

/-! ### GetBackProjMap: colour-space lookup and bin count -/

theorem findColor_unknown (colors : List String) (name : String) (h : name ∉ colors) :
    findColor colors name = colors.length := by
  unfold findColor
  exact List.indexOf_eq_length.mpr h

theorem imageConversionCall_undefined (L : CvLib ℚ) (colors : List String)
    (inputImg : Mat (Vec3 Nat)) (type : colorSpace) (norm : Bool) :
    imageConversionCall L colors inputImg type norm = none := by
  unfold imageConversionCall
  cases colorNameAt colors type <;> rfl

theorem backProjectAfterBins_undefined (L : CvLib ℚ) (H : HistLib) (normDefault : Bool)
    (obj : SaliencyObj) (req : GetBackProjRequest) :
    backProjectAfterBins L H normDefault obj req = Outcome.undefined := by
  unfold backProjectAfterBins
  rw [imageConversionCall_undefined]

/-- C2 (the code at the failing input): the name `sRGB` is not one of the twenty names. On a
fresh object the lookup gives position 20, the length of the list; nothing compares it with
the end of the list. It is cast to `colorSpace` and given to `imageConversion`, whose read
`_colors[index]` is then past the last element of the vector, so the call has no defined
result, and neither has the request: no `UnknownColorSpace` failure is raised. For a name of
the list, such as `HSV`, that read is inside the vector. -/
theorem GetBackProjMap_unknown_name_reads_past_colors (L : CvLib ℚ) (H : HistLib)
    (normDefault : Bool) (template_image input_image : Mat (Vec3 Nat)) (num_bins : Int)
    (normalize : Bool) :
    "sRGB" ∉ init._colors ∧
    init._colors.length = 20 ∧
    findColor init._colors "sRGB" = 20 ∧
    colorNameAt init._colors (findColor init._colors "sRGB") = none ∧
    imageConversionCall L init._colors input_image (findColor init._colors "sRGB") normDefault
      = none ∧
    GetBackProjMap L H normDefault init
      { template_image := template_image, input_image := input_image, num_bins := num_bins,
        normalize := normalize, color_space := "sRGB" } = Outcome.undefined ∧
    GetBackProjMap L H normDefault init
      { template_image := template_image, input_image := input_image, num_bins := num_bins,
        normalize := normalize, color_space := "sRGB" }
      ≠ Outcome.rejected SaliencyError.UnknownColorSpace ∧
    colorNameAt init._colors (findColor init._colors "HSV") = some "HSV" := by
  have hname : "sRGB" ∉ init._colors := by decide
  have hpos : findColor init._colors "sRGB" = 20 := by
    rw [findColor_unknown _ _ hname]
    rfl
  have hund : GetBackProjMap L H normDefault init
      { template_image := template_image, input_image := input_image, num_bins := num_bins,
        normalize := normalize, color_space := "sRGB" } = Outcome.undefined := by
    unfold GetBackProjMap
    exact backProjectAfterBins_undefined L H normDefault _ _
  refine ⟨hname, rfl, hpos, ?_, imageConversionCall_undefined L _ _ _ _, hund, ?_, ?_⟩
  · rw [hpos]
    rfl
  · rw [hund]
    intro h
    cases h
  · decide

theorem updateNumBins_negative (obj : SaliencyObj) (num_bins : Int) (hneg : num_bins < 0) :
    updateNumBins obj num_bins = obj := by
  unfold updateNumBins
  rw [if_neg (by omega)]

/-- C4 (amended): for every request whose bin count is negative, the bin-count check raises
no `InvalidParameter` failure: it leaves the object, and so the configured bin count,
unchanged; `histSize` of `generateBackProjection` holds that count in each of its four
entries; and the request is processed further exactly as the later statements of
`GetBackProjMap` run on the unchanged object. -/
theorem GetBackProjMap_negative_bins_keeps_count (L : CvLib ℚ) (H : HistLib)
    (normDefault : Bool) (obj : SaliencyObj) (req : GetBackProjRequest)
    (hneg : req.num_bins < 0) :
    updateNumBins obj req.num_bins = obj ∧
    (updateNumBins obj req.num_bins).num_bins = obj.num_bins ∧
    histSize (updateNumBins obj req.num_bins)
      = [obj.num_bins, obj.num_bins, obj.num_bins, obj.num_bins] ∧
    GetBackProjMap L H normDefault obj req = backProjectAfterBins L H normDefault obj req ∧
    GetBackProjMap L H normDefault obj req ≠ Outcome.rejected SaliencyError.InvalidParameter := by
  have hu := updateNumBins_negative obj req.num_bins hneg
  refine ⟨hu, by rw [hu], by rw [hu]; rfl, ?_, ?_⟩
  · unfold GetBackProjMap
    rw [hu]
  · unfold GetBackProjMap
    rw [backProjectAfterBins_undefined]
    intro h
    cases h

/-- Witness of C4 (amended): bin count `-1` on a fresh object, whose count is 128. -/
theorem GetBackProjMap_negative_bins_keeps_count_witness :
    ((-1 : Int) < 0) ∧
    (updateNumBins init (-1)).num_bins = 128 ∧
    histSize (updateNumBins init (-1)) = [128, 128, 128, 128] ∧
    ∀ (L : CvLib ℚ) (H : HistLib),
      GetBackProjMap L H true init
        { template_image := [[⟨10, 20, 30⟩]], input_image := [[⟨10, 20, 30⟩]], num_bins := -1,
          normalize := false, color_space := "RGB" }
        = backProjectAfterBins L H true init
          { template_image := [[⟨10, 20, 30⟩]], input_image := [[⟨10, 20, 30⟩]],
            num_bins := -1, normalize := false, color_space := "RGB" } :=
  ⟨by decide,
   by rw [updateNumBins_negative init (-1) (by decide)]; rfl,
   by rw [updateNumBins_negative init (-1) (by decide)]; rfl,
   fun L H => (GetBackProjMap_negative_bins_keeps_count L H true init
    { template_image := [[⟨10, 20, 30⟩]], input_image := [[⟨10, 20, 30⟩]], num_bins := -1,
      normalize := false, color_space := "RGB" } (by decide)).2.2.2.1⟩

/-- C4 (counterexample): on a fresh object the bin-count check with the count `-5` leaves the
128 bins configured before, with which `histSize` is filled, and for no library functions
and no images is the request rejected with `InvalidParameter`. -/
theorem GetBackProjMap_accepts_negative_bins :
    (updateNumBins init (-5)).num_bins = 128 ∧
    histSize (updateNumBins init (-5)) = [128, 128, 128, 128] ∧
    ∀ (L : CvLib ℚ) (H : HistLib) (normDefault : Bool)
      (template_image input_image : Mat (Vec3 Nat)),
      GetBackProjMap L H normDefault init
        { template_image := template_image, input_image := input_image, num_bins := -5,
          normalize := true, color_space := "HSV" }
        ≠ Outcome.rejected SaliencyError.InvalidParameter := by
  have hu : updateNumBins init (-5) = init := updateNumBins_negative init (-5) (by decide)
  refine ⟨by rw [hu]; rfl, by rw [hu]; rfl, ?_⟩
  intro L H normDefault template_image input_image h
  unfold GetBackProjMap at h
  rw [backProjectAfterBins_undefined] at h
  cases h

/-! ### imageConversion -/

theorem convertPixel_RGB {K : Type} [LinearOrderedField K] (L : CvLib K) (norm : Bool)
    (p : Vec3 K) : convertPixel L colorSpace.RGB norm p = [p.c0, p.c1, p.c2] := by
  simp [convertPixel, colorSpace.OPP, colorSpace.HSV, colorSpace.HSL, colorSpace.HSI,
    colorSpace.CMY, colorSpace.Lab, colorSpace.Luv, colorSpace.YCrCb, colorSpace.C1C2C3,
    colorSpace.COPP, colorSpace.XYZ, colorSpace.YIQ, colorSpace.UVW, colorSpace.YUV,
    colorSpace.NOPP, colorSpace.xyY, colorSpace.rg, colorSpace.YES, colorSpace.I1I2I3,
    colorSpace.RGB]

/-- C9 (the code at every input): for every 8-bit three-channel image, `imageConversion` with
`RGB` and `norm = false` sets `output` to the image whose samples are the input samples
times `1/255`, channel order kept, and then leaves the switch by `break` and reaches the end
of the function body: no image is returned. The same holds for the 4x4 image with 128 in all
channels, where `output` holds `128/255` in every sample. -/
theorem imageConversion_RGB_returns_nothing (L : CvLib ℚ) (inputImg : Mat (Vec3 Nat)) :
    imageConversionOutput L inputImg colorSpace.RGB false =
      inputImg.map (fun row => row.map (fun p =>
        [(p.c0 : ℚ) * (1 / 255), (p.c1 : ℚ) * (1 / 255), (p.c2 : ℚ) * (1 / 255)])) ∧
    imageConversion L inputImg colorSpace.RGB false = none ∧
    imageConversionOutput L (List.replicate 4 (List.replicate 4 ⟨128, 128, 128⟩))
        colorSpace.RGB false =
      List.replicate 4 (List.replicate 4 [128 / 255, 128 / 255, 128 / 255]) ∧
    imageConversion L (List.replicate 4 (List.replicate 4 ⟨128, 128, 128⟩))
        colorSpace.RGB false = none := by
  refine ⟨?_, rfl, ?_, rfl⟩
  · unfold imageConversionOutput
    simp only [convertPixel_RGB, scalePixel]
  · unfold imageConversionOutput
    simp only [convertPixel_RGB, scalePixel, List.replicate, List.map]
    norm_num

theorem threshToZeroF_unit {K : Type} [LinearOrderedField K] (x : K) (h : x ≤ 1) :
    0 ≤ threshToZeroF x ∧ threshToZeroF x ≤ 1 := by
  unfold threshToZeroF
  split
  · exact ⟨le_of_lt (by assumption), h⟩
  · exact ⟨le_refl 0, zero_le_one⟩

theorem copp_first (s r g : ℝ) (hs : 0 < s) :
    ((r - g) / s + 1 / s) / (1 / s * 2) = (r - g + 1) / 2 := by
  field_simp

theorem copp_second (s r g b : ℝ) (hs : 0 < s) :
    ((r + g - 2 * b) / s + 2 / s) / (2 / s * 2) = (r + g - 2 * b + 2) / 4 := by
  have hd : (2 / s * 2 : ℝ) ≠ 0 := by positivity
  have e1 : (r + g - 2 * b) / s + 2 / s = (r + g - 2 * b + 2) / 4 * (2 / s * 2) := by
    field_simp
    ring
  rw [e1, mul_div_assoc, div_self hd, mul_one]

theorem nopp_first (s2 s3 r g b : ℝ) (h2 : 0 < s2) (h3 : 0 < s3) (hsum : 0 < b + g + r) :
    ((r - g) / s2 / ((b + g + r) / s3) + s3 / s2) / (s3 / s2 * 2)
      = ((r - g) / (b + g + r) + 1) / 2 := by
  field_simp
  ring

theorem nopp_second (s6 s3 r g b : ℝ) (h6 : 0 < s6) (h3 : 0 < s3) (hsum : 0 < b + g + r) :
    ((r + g - 2 * b) / s6 / ((b + g + r) / s3) + 2 * s3 / s6) / (2 * s3 / s6 + s3 / s6)
      = ((r + g - 2 * b) / (b + g + r) + 2) / 3 := by
  field_simp
  ring

/-- For the colour spaces CMY, COPP, NOPP, YIQ, YUV, YES and I1I2I3, over the reals with
`sqrt` the real square root: for every pixel with channels in [0, 1] (and a positive channel
sum for NOPP), every channel that `imageConversion` with `norm = true` puts in `output` lies
in [0, 1]. -/
theorem convertPixel_unit_range (atan2 : ℝ → ℝ → ℝ) (PI : ℝ)
    (cvtColor : CvtCode → Vec3 ℝ → Vec3 ℝ) (type : colorSpace) (p : Vec3 ℝ)
    (htype : type = colorSpace.CMY ∨ type = colorSpace.COPP ∨ type = colorSpace.NOPP ∨
      type = colorSpace.YIQ ∨ type = colorSpace.YUV ∨ type = colorSpace.YES ∨
      type = colorSpace.I1I2I3)
    (h0 : 0 ≤ p.c0 ∧ p.c0 ≤ 1) (h1 : 0 ≤ p.c1 ∧ p.c1 ≤ 1) (h2 : 0 ≤ p.c2 ∧ p.c2 ≤ 1)
    (hsum : type = colorSpace.NOPP → 0 < p.c0 + p.c1 + p.c2) :
    ∀ x ∈ convertPixel ⟨Real.sqrt, atan2, PI, cvtColor⟩ type true p, 0 ≤ x ∧ x ≤ 1 := by
  obtain ⟨b, g, r⟩ := p
  simp only at h0 h1 h2 hsum
  obtain ⟨hb0, hb1⟩ := h0
  obtain ⟨hg0, hg1⟩ := h1
  obtain ⟨hr0, hr1⟩ := h2
  have s2 : 0 < Real.sqrt 2 := by positivity
  have s3 : 0 < Real.sqrt 3 := by positivity
  have s6 : 0 < Real.sqrt 6 := by positivity
  rcases htype with rfl | rfl | rfl | rfl | rfl | rfl | rfl
  · intro x hx
    simp [convertPixel, colorSpace.OPP, colorSpace.HSV, colorSpace.HSL, colorSpace.HSI,
      colorSpace.CMY, colorSpace.Lab, colorSpace.Luv, colorSpace.YCrCb, colorSpace.C1C2C3,
      colorSpace.COPP, colorSpace.XYZ, colorSpace.YIQ, colorSpace.UVW, colorSpace.YUV,
      colorSpace.NOPP, colorSpace.xyY, colorSpace.rg, colorSpace.YES, colorSpace.I1I2I3,
      colorSpace.RGB] at hx
    rcases hx with rfl | rfl | rfl <;> constructor <;> linarith
  · intro x hx
    simp only [convertPixel, colorSpace.OPP, colorSpace.HSV, colorSpace.HSL, colorSpace.HSI,
      colorSpace.CMY, colorSpace.Lab, colorSpace.Luv, colorSpace.YCrCb, colorSpace.C1C2C3,
      colorSpace.COPP, colorSpace.XYZ, colorSpace.YIQ, colorSpace.UVW, colorSpace.YUV,
      colorSpace.NOPP, colorSpace.xyY, colorSpace.rg, colorSpace.YES, colorSpace.I1I2I3,
      colorSpace.RGB, if_true, copp_first _ r g s2, copp_second _ r g b s6] at hx
    norm_num at hx
    rcases hx with rfl | rfl <;> apply threshToZeroF_unit <;> linarith
  · intro x hx
    have hsum' : 0 < b + g + r := hsum rfl
    have hq1 : (r - g) / (b + g + r) ≤ 1 := by rw [div_le_one hsum']; linarith
    have hq2 : (r + g - 2 * b) / (b + g + r) ≤ 1 := by rw [div_le_one hsum']; linarith
    simp only [convertPixel, colorSpace.OPP, colorSpace.HSV, colorSpace.HSL, colorSpace.HSI,
      colorSpace.CMY, colorSpace.Lab, colorSpace.Luv, colorSpace.YCrCb, colorSpace.C1C2C3,
      colorSpace.COPP, colorSpace.XYZ, colorSpace.YIQ, colorSpace.UVW, colorSpace.YUV,
      colorSpace.NOPP, colorSpace.xyY, colorSpace.rg, colorSpace.YES, colorSpace.I1I2I3,
      colorSpace.RGB, if_true, nopp_first _ _ r g b s2 s3 hsum',
      nopp_second _ _ r g b s6 s3 hsum'] at hx
    norm_num at hx
    rcases hx with rfl | rfl <;> apply threshToZeroF_unit <;> linarith
  · intro x hx
    simp [convertPixel, colorSpace.OPP, colorSpace.HSV, colorSpace.HSL, colorSpace.HSI,
      colorSpace.CMY, colorSpace.Lab, colorSpace.Luv, colorSpace.YCrCb, colorSpace.C1C2C3,
      colorSpace.COPP, colorSpace.XYZ, colorSpace.YIQ, colorSpace.UVW, colorSpace.YUV,
      colorSpace.NOPP, colorSpace.xyY, colorSpace.rg, colorSpace.YES, colorSpace.I1I2I3,
      colorSpace.RGB] at hx
    rcases hx with rfl | rfl | rfl <;> constructor <;> linarith
  · intro x hx
    simp [convertPixel, colorSpace.OPP, colorSpace.HSV, colorSpace.HSL, colorSpace.HSI,
      colorSpace.CMY, colorSpace.Lab, colorSpace.Luv, colorSpace.YCrCb, colorSpace.C1C2C3,
      colorSpace.COPP, colorSpace.XYZ, colorSpace.YIQ, colorSpace.UVW, colorSpace.YUV,
      colorSpace.NOPP, colorSpace.xyY, colorSpace.rg, colorSpace.YES, colorSpace.I1I2I3,
      colorSpace.RGB] at hx
    rcases hx with rfl | rfl | rfl <;> constructor <;> linarith
  · intro x hx
    simp [convertPixel, colorSpace.OPP, colorSpace.HSV, colorSpace.HSL, colorSpace.HSI,
      colorSpace.CMY, colorSpace.Lab, colorSpace.Luv, colorSpace.YCrCb, colorSpace.C1C2C3,
      colorSpace.COPP, colorSpace.XYZ, colorSpace.YIQ, colorSpace.UVW, colorSpace.YUV,
      colorSpace.NOPP, colorSpace.xyY, colorSpace.rg, colorSpace.YES, colorSpace.I1I2I3,
      colorSpace.RGB] at hx
    rcases hx with rfl | rfl | rfl <;> constructor <;> linarith
  · intro x hx
    simp [convertPixel, colorSpace.OPP, colorSpace.HSV, colorSpace.HSL, colorSpace.HSI,
      colorSpace.CMY, colorSpace.Lab, colorSpace.Luv, colorSpace.YCrCb, colorSpace.C1C2C3,
      colorSpace.COPP, colorSpace.XYZ, colorSpace.YIQ, colorSpace.UVW, colorSpace.YUV,
      colorSpace.NOPP, colorSpace.xyY, colorSpace.rg, colorSpace.YES, colorSpace.I1I2I3,
      colorSpace.RGB] at hx
    rcases hx with rfl | rfl | rfl <;> constructor <;> linarith

/-- C3 (the code at the failing input): over the reals, with `sqrt` the real square root,
`imageConversion` with `OPP` and `norm = true` gives the white pixel (255, 255, 255), whose
scaled channels are all 1, the third output channel `3`: the luminance `(B+G+R)/sqrt(3)` is
divided by `1/sqrt(3)`, so the channel is `B+G+R`, which is above 1. -/
theorem convertPixel_OPP_white_exceeds_one (atan2 : ℝ → ℝ → ℝ) (PI : ℝ)
    (cvtColor : CvtCode → Vec3 ℝ → Vec3 ℝ) :
    convertPixel ⟨Real.sqrt, atan2, PI, cvtColor⟩ colorSpace.OPP true
        (scalePixel ⟨255, 255, 255⟩) = [1 / 2, 1 / 2, 3] ∧
    ¬ ((3 : ℝ) ≤ 1) := by
  have h3 : Real.sqrt 3 ≠ 0 := by positivity
  have h2 : Real.sqrt 2 ≠ 0 := by positivity
  have h6 : Real.sqrt 6 ≠ 0 := by positivity
  refine ⟨?_, by norm_num⟩
  simp [convertPixel, colorSpace.OPP, colorSpace.HSV, colorSpace.HSL, colorSpace.HSI,
    colorSpace.CMY, colorSpace.Lab, colorSpace.Luv, colorSpace.YCrCb, colorSpace.C1C2C3,
    colorSpace.COPP, colorSpace.XYZ, colorSpace.YIQ, colorSpace.UVW, colorSpace.YUV,
    scalePixel, threshToZeroF]
  norm_num
  constructor <;> field_simp

/-! ### Sizes -/

theorem cvRound_intCast (n : Int) : cvRound (n : ℚ) = n := by
  unfold cvRound
  simp only [Int.floor_intCast, sub_self]
  rw [if_pos (by norm_num)]

theorem asInt_natCast (x : Nat) (h : x < 2147483648) : asInt (x : Int) = some (x : Int) := by
  unfold asInt
  rw [if_pos (Or.inl (by rw [Int.natAbs_ofNat]; exact h))]

theorem mulInt_natCast (a b : Nat) (h : a * b < 2147483648) :
    mulInt (a : Int) (b : Int) = some ((a * b : Nat) : Int) := by
  unfold mulInt
  rw [← Nat.cast_mul]
  exact asInt_natCast (a * b) h

theorem mulInt4_natCast (a b c d : Nat) (h1 : a * b < 2147483648)
    (h2 : a * b * c < 2147483648) (h3 : a * b * c * d < 2147483648) :
    mulInt4 (a : Int) (b : Int) (c : Int) (d : Int) = some ((a * b * c * d : Nat) : Int) := by
  unfold mulInt4
  rw [mulInt_natCast a b h1, Option.some_bind, mulInt_natCast (a * b) c h2, Option.some_bind,
    mulInt_natCast (a * b * c) d h3]

theorem headerInt_natCast (n : Nat) (h : n < 2147483648) :
    headerInt (some (n : ℚ)) = some (n : Int) := by
  unfold headerInt
  have e : ((n : Nat) : ℚ) = (((n : Int)) : ℚ) := by push_cast; rfl
  rw [e]
  exact floatToInt_intCast (n : Int) (by rw [Int.natAbs_ofNat]; exact h)

theorem kernelIndex_natCast (C K S c n r q : Nat) (hS : 0 < S) (hc : c < C) (hn : n < K)
    (hint : C * K * S * S < 2147483648) :
    kernelIndex (K : Int) (S : Int) c n r q
      = some (((((c * K + n) * S + r) * S + q : Nat)) : Int) := by
  have b0 : c * K + n < C * K := by
    have h : (c + 1) * K ≤ C * K := Nat.mul_le_mul_right K hc
    have h2 : (c + 1) * K = c * K + K := by ring
    omega
  have b1 : (c * K + n) * S < C * K * S := Nat.mul_lt_mul_of_pos_right b0 hS
  have b2 : (c * K + n) * S * S < C * K * S * S :=
    Nat.mul_lt_mul_of_pos_right b1 hS
  have m1 : C * K * S ≤ C * K * S * S := Nat.le_mul_of_pos_right _ hS
  have m0 : C * K ≤ C * K * S := Nat.le_mul_of_pos_right _ hS
  have e2 : (c * K + n) * S * S = c * K * S * S + n * S * S := by ring
  have e1 : (c * K + n) * S = c * K * S + n * S := by ring
  have h1 : c * K < 2147483648 := by omega
  have h2 : c * K * S < 2147483648 := by omega
  have h3 : c * K * S * S < 2147483648 := by omega
  have h4 : n * S < 2147483648 := by omega
  have h5 : n * S * S < 2147483648 := by omega
  have h6 : c * K * S * S + n * S * S < 2147483648 := by omega
  unfold kernelIndex kernelOffset
  rw [mulInt4_natCast c K S S h1 h2 h3, Option.some_bind, mulInt_natCast n S h4,
    Option.some_bind, mulInt_natCast (n * S) S h5, Option.some_bind, ← Nat.cast_add,
    asInt_natCast _ h6, Option.map_some']
  congr 1
  push_cast
  ring

theorem pair_lt (S a b A : Nat) (ha : a < A) (hb : b < S) : a * S + b < A * S := by
  have h : (a + 1) * S ≤ A * S := Nat.mul_le_mul_right S ha
  have h2 : (a + 1) * S = a * S + S := by ring
  omega

theorem pair_inj (S a b a' b' : Nat) (hb : b < S) (hb' : b' < S)
    (h : a * S + b = a' * S + b') : a = a' ∧ b = b' := by
  have hS : 0 < S := by omega
  have e1 : (a * S + b) / S = a := by
    rw [Nat.add_comm, Nat.add_mul_div_right _ _ hS, Nat.div_eq_of_lt hb, Nat.zero_add]
  have e2 : (a' * S + b') / S = a' := by
    rw [Nat.add_comm, Nat.add_mul_div_right _ _ hS, Nat.div_eq_of_lt hb', Nat.zero_add]
  have ha : a = a' := by rw [← e1, ← e2, h]
  subst ha
  exact ⟨rfl, by omega⟩

theorem flat_inj (K S c n r q c' n' r' q' : Nat) (hn : n < K) (hr : r < S) (hq : q < S)
    (hn' : n' < K) (hr' : r' < S) (hq' : q' < S)
    (h : ((c * K + n) * S + r) * S + q = ((c' * K + n') * S + r') * S + q') :
    c = c' ∧ n = n' ∧ r = r' ∧ q = q' := by
  obtain ⟨h1, e4⟩ := pair_inj S _ q _ q' hq hq' h
  obtain ⟨h2, e3⟩ := pair_inj S _ r _ r' hr hr' h1
  obtain ⟨e1, e2⟩ := pair_inj K c n c' n' hn hn' h2
  exact ⟨e1, e2, e3, e4⟩

theorem flat_lt (C K S c n r q : Nat) (hc : c < C) (hn : n < K) (hr : r < S) (hq : q < S) :
    ((c * K + n) * S + r) * S + q < C * K * S * S :=
  pair_lt S _ q _ (pair_lt S _ r _ (pair_lt K c n C hc hn) hr) hq

theorem flat_surj (C K S i : Nat) (hS : 0 < S) (hK : 0 < K) (hi : i < C * K * S * S) :
    ∃ c n r q : Nat, c < C ∧ n < K ∧ r < S ∧ q < S ∧ ((c * K + n) * S + r) * S + q = i := by
  have h1 : i / S < C * K * S := Nat.div_lt_of_lt_mul (by rw [Nat.mul_comm]; exact hi)
  have h2 : i / S / S < C * K := Nat.div_lt_of_lt_mul (by rw [Nat.mul_comm]; exact h1)
  have h3 : i / S / S / K < C := Nat.div_lt_of_lt_mul (by rw [Nat.mul_comm]; exact h2)
  refine ⟨i / S / S / K, i / S / S % K, i / S % S, i % S, h3, Nat.mod_lt _ hK,
    Nat.mod_lt _ hS, Nat.mod_lt _ hS, ?_⟩
  have e1 : i / S / S / K * K + i / S / S % K = i / S / S := by
    rw [Nat.mul_comm]; exact Nat.div_add_mod _ _
  have e2 : i / S / S * S + i / S % S = i / S := by
    rw [Nat.mul_comm]; exact Nat.div_add_mod _ _
  have e3 : i / S * S + i % S = i := by
    rw [Nat.mul_comm]; exact Nat.div_add_mod _ _
  rw [e1, e2, e3]

theorem loadBasis_of_header (floats rest : List ℚ) (t0 t1 t2 : ℚ)
    (num_kernels kernel_size num_channels count size : Int)
    (hfile : floats = t0 :: t1 :: t2 :: rest)
    (h0 : floatToInt t0 = some num_kernels) (h1 : floatToInt t1 = some kernel_size)
    (h2 : floatToInt t2 = some num_channels)
    (hk : 0 < num_kernels) (hs : 0 ≤ kernel_size) (hc : 0 < num_channels)
    (hsize : mulInt4 num_channels num_kernels kernel_size kernel_size = some size)
    (hcount : mulInt4 num_kernels kernel_size kernel_size num_channels = some count)
    (hpayload : count ≤ ((rest.take count.toNat).length : Int)) :
    loadBasis (some floats) = LoadOutcome.loaded
      { num_kernels := num_kernels, kernel_size := kernel_size, num_channels := num_channels,
        data := rest.take count.toNat } := by
  subst hfile
  unfold loadBasis
  simp only [freadFloat, headerInt, h0, h1, h2, hsize, hcount]
  rw [if_neg (by omega), if_neg (by omega), if_neg (by omega)]

theorem loadBasis_of_bad_header (rest : List ℚ) (t0 t1 t2 : ℚ) (h0 : floatToInt t0 = none) :
    loadBasis (some (t0 :: t1 :: t2 :: rest)) = LoadOutcome.undefined := by
  unfold loadBasis
  simp only [freadFloat, headerInt, h0]

/-- C10 (amended): for every header of positive values `K` kernels, size `S`, `C` channels
whose product `C*K*S*S` is an `int` (below `2147483648`) and every payload of exactly
`C*K*S*S` floats, `loadBasis` returns with the header and the whole payload stored, the entry
at row `r`, column `q` of the filter `kernels[n][c]` is
`payload[((c*K + n)*S + r)*S + q]`, and the map from `(c, n, r, q)` to that index is a
bijection from the box `c < C, n < K, r < S, q < S` onto the indices below `C*K*S*S`: it
stays below the bound, it is injective, and it reaches every index. -/
theorem loadBasis_layout (K S C : Nat) (payload : List ℚ) (hK : 0 < K) (hS : 0 < S)
    (hC : 0 < C) (hint : C * K * S * S < 2147483648)
    (hlen : payload.length = C * K * S * S) :
    ∃ b : Basis,
      loadBasis (some ((K : ℚ) :: (S : ℚ) :: (C : ℚ) :: payload)) = LoadOutcome.loaded b ∧
      b.num_kernels = (K : Int) ∧ b.kernel_size = (S : Int) ∧ b.num_channels = (C : Int) ∧
      b.data = payload ∧
      (∀ c n r q : Nat, c < C → n < K → r < S → q < S →
        kernelIndex b.num_kernels b.kernel_size c n r q
            = some ((((c * K + n) * S + r) * S + q : Nat) : Int) ∧
        ((c * K + n) * S + r) * S + q < C * K * S * S ∧
        kernelAt b n c r q = payload[((c * K + n) * S + r) * S + q]? ∧
        ∃ x : ℚ, kernelAt b n c r q = some x) ∧
      (∀ c n r q c' n' r' q' : Nat, c < C → n < K → r < S → q < S →
        c' < C → n' < K → r' < S → q' < S →
        kernelIndex b.num_kernels b.kernel_size c n r q
            = kernelIndex b.num_kernels b.kernel_size c' n' r' q' →
        c = c' ∧ n = n' ∧ r = r' ∧ q = q') ∧
      (∀ i : Nat, i < C * K * S * S →
        ∃ c n r q : Nat, c < C ∧ n < K ∧ r < S ∧ q < S ∧
          kernelIndex b.num_kernels b.kernel_size c n r q = some (i : Int)) := by
  have m0 : C * K ≤ C * K * S := Nat.le_mul_of_pos_right _ hS
  have m1 : C * K * S ≤ C * K * S * S := Nat.le_mul_of_pos_right _ hS
  have mK : K ≤ C * K := Nat.le_mul_of_pos_left _ hC
  have mS : S ≤ C * K * S := Nat.le_mul_of_pos_left _ (Nat.mul_pos hC hK)
  have mC : C ≤ C * K := Nat.le_mul_of_pos_right _ hK
  have n0 : K * S ≤ K * S * S := Nat.le_mul_of_pos_right _ hS
  have n1 : K * S * S ≤ K * S * S * C := Nat.le_mul_of_pos_right _ hC
  have n2 : K * S * S * C = C * K * S * S := by ring
  have hcount : mulInt4 (K : Int) (S : Int) (S : Int) (C : Int)
      = some ((K * S * S * C : Nat) : Int) :=
    mulInt4_natCast K S S C (by omega) (by omega) (by omega)
  have hsize : mulInt4 (C : Int) (K : Int) (S : Int) (S : Int)
      = some ((C * K * S * S : Nat) : Int) :=
    mulInt4_natCast C K S S (by omega) (by omega) (by omega)
  have htake : payload.take (((K * S * S * C : Nat) : Int)).toNat = payload := by
    rw [Int.toNat_natCast]
    exact List.take_of_length_le (by omega)
  have hload := loadBasis_of_header ((K : ℚ) :: (S : ℚ) :: (C : ℚ) :: payload) payload
    (K : ℚ) (S : ℚ) (C : ℚ) (K : Int) (S : Int) (C : Int) ((K * S * S * C : Nat) : Int)
    ((C * K * S * S : Nat) : Int) rfl
    (headerInt_natCast K (by omega)) (headerInt_natCast S (by omega))
    (headerInt_natCast C (by omega)) (by exact_mod_cast hK) (Int.natCast_nonneg S)
    (by exact_mod_cast hC) hsize hcount
    (by rw [htake, hlen]; exact_mod_cast (le_of_eq n2))
  rw [htake] at hload
  refine ⟨⟨(K : Int), (S : Int), (C : Int), payload⟩, hload, rfl, rfl, rfl, rfl, ?_, ?_, ?_⟩
  · intro c n r q hc hn hr hq
    have hlt := flat_lt C K S c n r q hc hn hr hq
    have hidx := kernelIndex_natCast C K S c n r q hS hc hn hint
    have hat : kernelAt ⟨(K : Int), (S : Int), (C : Int), payload⟩ n c r q
        = payload[((c * K + n) * S + r) * S + q]? := by
      unfold kernelAt
      simp only [hidx]
      unfold readData
      rw [if_pos (Int.natCast_nonneg _), Int.toNat_natCast]
    refine ⟨hidx, hlt, hat, ?_⟩
    rw [hat]
    exact ⟨payload[((c * K + n) * S + r) * S + q],
      List.getElem?_eq_getElem (by rw [hlen]; exact hlt)⟩
  · intro c n r q c' n' r' q' hc hn hr hq hc' hn' hr' hq' h
    simp only [kernelIndex_natCast C K S c n r q hS hc hn hint,
      kernelIndex_natCast C K S c' n' r' q' hS hc' hn' hint] at h
    exact flat_inj K S c n r q c' n' r' q' hn hr hq hn' hr' hq'
      (by exact_mod_cast Option.some.inj h)
  · intro i hi
    obtain ⟨c, n, r, q, hc, hn, hr, hq, e⟩ := flat_surj C K S i hS hK hi
    refine ⟨c, n, r, q, hc, hn, hr, hq, ?_⟩
    simp only [kernelIndex_natCast C K S c n r q hS hc hn hint, e]

/-- Witness of C10 (amended): three kernels of size 2 on two channels with the payload
`0, 1, ..., 23`; the entry at row 0, column 1 of the filter of kernel 0 for channel 1 is
`payload[13]`. -/
theorem loadBasis_layout_witness :
    ∃ b : Basis,
      loadBasis (some [3, 2, 2, 0, 1, 2, 3, 4, 5, 6, 7, 8, 9, 10, 11, 12, 13, 14, 15, 16, 17, 18, 19, 20, 21, 22, 23]) = LoadOutcome.loaded b ∧
      kernelAt b 0 1 0 1 = some 13 ∧ kernelAt b 2 0 1 0 = some 10 := by
  obtain ⟨b, hb, _, _, _, _, hentry, _, _⟩ :=
    loadBasis_layout 3 2 2 [0, 1, 2, 3, 4, 5, 6, 7, 8, 9, 10, 11, 12, 13, 14, 15, 16, 17, 18, 19, 20, 21, 22, 23]
      (by decide) (by decide) (by decide) (by decide) rfl
  refine ⟨b, ?_, ?_, ?_⟩
  · simpa using hb
  · have h := (hentry 1 0 0 1 (by decide) (by decide) (by decide) (by decide)).2.2.1
    rw [h]
    rfl
  · have h := (hentry 0 2 1 0 (by decide) (by decide) (by decide) (by decide)).2.2.1
    rw [h]
    rfl

theorem floatToInt_three_billion : floatToInt 3000000000 = none := by
  have ht : (if 0 ≤ (3000000000 : ℚ) then Int.floor (3000000000 : ℚ)
      else Int.ceil (3000000000 : ℚ)) = 3000000000 := by
    rw [if_pos (by norm_num)]
    exact Int.floor_intCast 3000000000
  unfold floatToInt
  rw [ht, if_neg (by decide)]

/-- C10 (counterexample): the header `3000000000, 1, 1` has positive values and the payload
of `3000000000` zeros has exactly `C*K*S*S` floats, but the conversion of the first header
float to `int` is not defined (the value is above `2147483647`), so `loadBasis` stores no
filter at all. -/
theorem loadBasis_header_beyond_int :
    (List.replicate 3000000000 (0 : ℚ)).length = 1 * 3000000000 * 1 * 1 ∧
    loadBasis (some (3000000000 :: 1 :: 1 :: List.replicate 3000000000 0))
      = LoadOutcome.undefined ∧
    ∀ b : Basis, loadBasis (some (3000000000 :: 1 :: 1 :: List.replicate 3000000000 0))
      ≠ LoadOutcome.loaded b := by
  have h := loadBasis_of_bad_header (List.replicate 3000000000 0) 3000000000 1 1
    floatToInt_three_billion
  refine ⟨by rw [List.length_replicate], h, ?_⟩
  intro b hb
  rw [h] at hb
  cases hb

/-! ### runAIM on the all-zero basis -/

theorem loadBasis_zeros :
    loadBasis (some [1, 3, 1, 0, 0, 0, 0, 0, 0, 0, 0, 0]) = LoadOutcome.loaded zeroBasis := by
  decide

theorem kernelWeight_zeroBasis (f c u v : Nat) : kernelWeight zeroBasis f c u v = 0 := by
  unfold kernelWeight kernelAt
  cases kernelIndex zeroBasis.num_kernels zeroBasis.kernel_size c f u v with
  | none => rfl
  | some idx =>
    simp only [readData]
    split
    · simp only [zeroBasis, List.getElem?_replicate]
      split <;> rfl
    · rfl

theorem filter2DAt_zero_kernel (src : Mat ℚ) (kernel : Nat → Nat → ℚ) (ksize i j : Nat)
    (h : ∀ u v, kernel u v = 0) : filter2DAt src kernel ksize i j = 0 := by
  unfold filter2DAt
  simp [h]

theorem responseAt_zeroBasis (image : Mat (List Nat)) (f i j : Nat) :
    responseAt zeroBasis image f i j = 0 := by
  unfold responseAt
  simp [filter2DAt_zero_kernel _ _ _ _ _ (kernelWeight_zeroBasis f _)]

theorem featureMap_zeroBasis (image : Mat (List Nat)) (f : Nat) (hrows : 2 ≤ image.length)
    (hcols : 2 ≤ matCols image) :
    featureMap zeroBasis image f =
      some ((List.range (image.length - 2)).map (fun _ =>
        (List.range (matCols image - 2)).map (fun _ => (0 : ℚ)))) := by
  unfold featureMap
  have hk : zeroBasis.kernel_size = 3 := rfl
  simp only [hk, responseAt_zeroBasis]
  have e1 : ((3 : Int) / 2) = 1 := by decide
  have e2 : (((3 : Int) - 1) / 2) = 1 := by decide
  rw [e1, e2]
  rw [if_pos (by omega)]
  have e3 : ((image.length : Int) - 1 - 1).toNat = image.length - 2 := by omega
  have e4 : ((matCols image : Int) - 1 - 1).toNat = matCols image - 2 := by omega
  rw [e3, e4]

theorem foldl_min_const (c : ℚ) (xs : List ℚ) (h : ∀ v ∈ xs, v = c) : xs.foldl min c = c := by
  induction xs with
  | nil => rfl
  | cons x xs ih =>
    have hx : x = c := h x (List.mem_cons_self x xs)
    rw [List.foldl_cons, hx, min_self]
    exact ih (fun v hv => h v (List.mem_cons_of_mem x hv))

theorem foldl_max_const (c : ℚ) (xs : List ℚ) (h : ∀ v ∈ xs, v = c) : xs.foldl max c = c := by
  induction xs with
  | nil => rfl
  | cons x xs ih =>
    have hx : x = c := h x (List.mem_cons_self x xs)
    rw [List.foldl_cons, hx, max_self]
    exact ih (fun v hv => h v (List.mem_cons_of_mem x hv))

theorem minMaxLoc_const_range (m : Mat ℚ) (c : ℚ) (h : ∀ row ∈ m, ∀ v ∈ row, v = c) :
    (minMaxLoc m).2 - (minMaxLoc m).1 = 0 := by
  have hall : ∀ v ∈ m.flatten, v = c := by
    intro v hv
    obtain ⟨row, hrow, hvr⟩ := List.mem_flatten.mp hv
    exact h row hrow v hvr
  unfold minMaxLoc
  cases hm : m.flatten with
  | nil => simp
  | cons x xs =>
    rw [hm] at hall
    have hx : x = c := hall x (List.mem_cons_self x xs)
    have hxs : ∀ v ∈ xs, v = c := fun v hv => hall v (List.mem_cons_of_mem x hv)
    simp only [hx, foldl_min_const c xs hxs, foldl_max_const c xs hxs, sub_self]

theorem minMaxLoc_zeros (m : Mat ℚ) (h : ∀ row ∈ m, ∀ v ∈ row, v = 0) :
    minMaxLoc m = (0, 0) := by
  have hall : ∀ v ∈ m.flatten, v = 0 := by
    intro v hv
    obtain ⟨row, hrow, hvr⟩ := List.mem_flatten.mp hv
    exact h row hrow v hvr
  unfold minMaxLoc
  cases hm : m.flatten with
  | nil => rfl
  | cons x xs =>
    rw [hm] at hall
    have hx : x = 0 := hall x (List.mem_cons_self x xs)
    have hxs : ∀ v ∈ xs, v = 0 := fun v hv => hall v (List.mem_cons_of_mem x hv)
    simp only [hx, foldl_min_const 0 xs hxs, foldl_max_const 0 xs hxs]

/-- C7 (the code at the failing inputs): with the basis of 1 kernel, size 3, 1 channel and
all-zero weights, for every image of at least 3 rows and 3 columns (so that the crop is not
empty) every sample of the cropped response is 0, the loop leaves `min_aim = 0` and
`max_aim = 0`, and the rescaling statement `aim_temp[f] /= (max_aim - min_aim)` divides by
zero: no guard stands before it. Likewise the factor `255/(maxVal-minVal)` of the final
rescale is a division by zero for every surface whose samples are all equal. -/
theorem runAIM_zero_basis_divides_by_zero (image : Mat (List Nat))
    (hrows : 3 ≤ image.length) (hcols : 3 ≤ matCols image) :
    (∃ m : Mat ℚ, featureMap zeroBasis image 0 = some m ∧ ∀ row ∈ m, ∀ v ∈ row, v = 0) ∧
    globalRange zeroBasis image = some (0, 0) ∧
    rescaleFeatures zeroBasis image = none ∧
    (∀ (sm : Mat ℚ) (c : ℚ), (∀ row ∈ sm, ∀ v ∈ row, v = c) → viewScale sm = none) := by
  have hf := featureMap_zeroBasis image 0 (by omega) (by omega)
  have hz : ∀ row ∈ ((List.range (image.length - 2)).map (fun _ =>
      (List.range (matCols image - 2)).map (fun _ => (0 : ℚ)))), ∀ v ∈ row, v = 0 := by
    intro row hrow v hv
    obtain ⟨_, _, rfl⟩ := List.mem_map.mp hrow
    obtain ⟨_, _, rfl⟩ := List.mem_map.mp hv
    rfl
  have hmm := minMaxLoc_zeros _ hz
  have hn : zeroBasis.num_kernels.toNat = 1 := rfl
  have hr1 : List.range 1 = [0] := rfl
  have hg : globalRange zeroBasis image = some (0, 0) := by
    unfold globalRange
    rw [hn, hr1, List.foldl_cons, List.foldl_nil, hf]
    simp only [hmm]
    norm_num
  refine ⟨⟨_, hf, hz⟩, hg, ?_, ?_⟩
  · unfold rescaleFeatures
    rw [hg, hn, hr1]
    simp only [divScalar, sub_self, if_true]
    rw [List.mapM_cons, hf]
    rfl
  · intro sm c hc
    unfold viewScale
    rw [if_pos (minMaxLoc_const_range sm c hc)]

/-- Witness of C7: the 3 x 3 one-channel image with samples 10, 20, ..., 90. -/
theorem runAIM_zero_basis_divides_by_zero_witness :
    rescaleFeatures zeroBasis [[[10], [20], [30]], [[40], [50], [60]], [[70], [80], [90]]]
      = none :=
  (runAIM_zero_basis_divides_by_zero
    [[[10], [20], [30]], [[40], [50], [60]], [[70], [80], [90]]] (by decide) (by decide)).2.2.1

/-! ### runAIM: the 8-bit view of the surface -/

theorem saturateUchar_intCast (n : Int) (h0 : 0 ≤ n) (h1 : n ≤ 255) :
    saturateUchar (n : ℚ) = n.toNat := by
  unfold saturateUchar
  rw [cvRound_intCast, if_neg (by omega), if_neg (by omega)]

theorem saturateUchar_above (n : Int) (h : 255 < n) : saturateUchar (n : ℚ) = 255 := by
  unfold saturateUchar
  rw [cvRound_intCast, if_neg (by omega), if_pos h]

theorem minMaxLoc_one_two : minMaxLoc [[1, 2]] = (1, 2) := by
  unfold minMaxLoc
  simp only [List.flatten, List.append_nil, List.foldl_cons, List.foldl_nil]
  norm_num

theorem viewScale_one_two : viewScale [[1, 2]] = some 255 := by
  unfold viewScale
  rw [minMaxLoc_one_two]
  norm_num

/-- C11 (the code at the failing input): on the surface with the two samples 1 and 2, so
`m = 1` and `M = 2`, the conversion runs with factor `255/(M-m) = 255` and offset `-m = -1`:
the pixel holding the minimum becomes `255*1 - 1 = 254` and the pixel holding the maximum
becomes `255*2 - 1 = 509`, saturated to 255. The affine rescale `round(255*(v - m)/(M - m))`
gives 0 and 255 there. -/
theorem viewSurface_offset_not_scaled :
    minMaxLoc [[1, 2]] = (1, 2) ∧
    viewSurface [[1, 2]] = some [[254, 255]] ∧
    affineRescaleSpec 1 2 1 = 0 ∧
    affineRescaleSpec 1 2 2 = 255 := by
  refine ⟨minMaxLoc_one_two, ?_, ?_, ?_⟩
  · unfold viewSurface
    rw [viewScale_one_two, minMaxLoc_one_two]
    have e1 : (255 : ℚ) * 1 + -1 = ((254 : Int) : ℚ) := by norm_num
    have e2 : (255 : ℚ) * 2 + -1 = ((509 : Int) : ℚ) := by norm_num
    simp only [convertTo8U, List.map, e1, e2]
    rw [saturateUchar_intCast 254 (by decide) (by decide), saturateUchar_above 509 (by decide)]
    rfl
  · unfold affineRescaleSpec
    have e : (255 : ℚ) * (1 - 1) / (2 - 1) = ((0 : Int) : ℚ) := by norm_num
    rw [e, saturateUchar_intCast 0 (by decide) (by decide)]
    rfl
  · unfold affineRescaleSpec
    have e : (255 : ℚ) * (2 - 1) / (2 - 1) = ((255 : Int) : ℚ) := by norm_num
    rw [e, saturateUchar_intCast 255 (by decide) (by decide)]
    rfl

/-- When the minimum of the surface is 0 and the maximum is not, the offset `-minVal` is 0
and the 8-bit view is the affine rescale `round(255*(v - m)/(M - m))` of every sample. -/
theorem viewSurface_of_zero_min (sm : Mat ℚ) (hmin : (minMaxLoc sm).1 = 0)
    (hmax : (minMaxLoc sm).2 ≠ 0) :
    viewSurface sm = some (sm.map (fun row => row.map (fun v =>
      affineRescaleSpec (minMaxLoc sm).1 (minMaxLoc sm).2 v))) := by
  have hs : viewScale sm = some (255 / ((minMaxLoc sm).2 - (minMaxLoc sm).1)) := by
    unfold viewScale
    rw [if_neg]
    rw [hmin, sub_zero]
    exact hmax
  unfold viewSurface
  rw [hs]
  simp only [convertTo8U, affineRescaleSpec, hmin, sub_zero, neg_zero, add_zero]
  congr 1
  apply List.map_congr_left
  intro row _
  apply List.map_congr_left
  intro v _
  congr 1
  ring

/-! ### runAIM: the histogram index of a pixel -/

theorem lookupIdx_range (v : ℚ) (h0 : 0 ≤ v) (h1 : v ≤ 1) :
    0 ≤ lookupIdx v ∧ lookupIdx v ≤ 255 := by
  have hx0 : (0 : ℚ) ≤ v * (256 - 1) := by nlinarith
  unfold lookupIdx roundHalfAway
  rw [if_pos hx0]
  constructor
  · apply Int.floor_nonneg.mpr
    linarith
  · have hlt : Int.floor (v * (256 - 1) + 1 / 2) < 256 := by
      apply Int.floor_lt.mpr
      push_cast
      nlinarith
    omega

theorem calcHistBin_zero : calcHistBin 0 = some 0 := by
  have hf : Int.floor ((0 : ℚ) * 256) = 0 := by
    rw [Int.floor_eq_iff]
    norm_num
  unfold calcHistBin
  rw [hf]
  rfl

theorem calcHistBin_near_one : calcHistBin (99 / 100) = some 253 := by
  have hf : Int.floor ((99 / 100 : ℚ) * 256) = 253 := by
    rw [Int.floor_eq_iff]
    norm_num
  unfold calcHistBin
  rw [hf]
  rfl

theorem calcHistBin_one : calcHistBin 1 = none := by
  have hf : Int.floor ((1 : ℚ) * 256) = 256 := by
    rw [Int.floor_eq_iff]
    norm_num
  unfold calcHistBin
  rw [hf]
  rfl

theorem lookupIdx_near_one : lookupIdx (99 / 100) = 252 := by
  unfold lookupIdx roundHalfAway
  rw [if_pos (by norm_num), Int.floor_eq_iff]
  norm_num

theorem lookupIdx_one : lookupIdx 1 = 255 := by
  unfold lookupIdx roundHalfAway
  rw [if_pos (by norm_num), Int.floor_eq_iff]
  norm_num

theorem calcHist_length (m : Mat ℚ) : (calcHist m).length = 256 := by
  unfold calcHist
  rw [List.length_map, List.length_range]

theorem histAt_calcHist (m : Mat ℚ) (b : Nat) (hb : b < 256) :
    histAt (calcHist m) (b : Int) =
      some (m.flatten.filter (fun v => calcHistBin v = some b)).length := by
  unfold histAt
  rw [calcHist_length, if_pos (by omega), Int.toNat_natCast]
  unfold calcHist
  rw [List.getElem?_map, List.getElem?_range hb]
  rfl

theorem kernelWeight_unit : kernelWeight unitBasis 0 0 0 0 = 1 := by decide

theorem responseAt_unit (j : Nat) :
    responseAt unitBasis rampImage 0 0 j
      = borderAt (channelPlane rampImage 0) 0 (j : Int) := by
  have hc : unitBasis.num_channels.toNat = 1 := rfl
  have hk : unitBasis.kernel_size.toNat = 1 := rfl
  have hr1 : List.range 1 = [0] := rfl
  unfold responseAt filter2DAt
  rw [hc, hk, hr1]
  simp only [List.map, List.sum_cons, List.sum_nil, kernelWeight_unit]
  norm_num

theorem featureMap_unit :
    featureMap unitBasis rampImage 0 = some [[0, 99 / 255, 100 / 255]] := by
  have hk : unitBasis.kernel_size = 1 := rfl
  have hcols : ((matCols rampImage : Nat) : Int) = 3 := rfl
  have hrows : ((rampImage.length : Nat) : Int) = 1 := rfl
  have e1 : (1 : Int) / 2 = 0 := by decide
  have e2 : ((1 : Int) - 1) / 2 = 0 := by decide
  have t3 : ((3 : Int) - 0 - 0).toNat = 3 := rfl
  have t1 : ((1 : Int) - 0 - 0).toNat = 1 := rfl
  have t0 : (0 : Int).toNat = 0 := rfl
  have hr1 : List.range 1 = [0] := rfl
  have hr3 : List.range 3 = [0, 1, 2] := rfl
  unfold featureMap
  simp only [hk, hcols, hrows, e1, e2]
  rw [if_pos (by decide), t3, t1, t0, hr1, hr3]
  simp only [List.map, Nat.zero_add, Nat.add_zero, responseAt_unit]
  simp [borderAt, channelPlane, rampImage]

theorem rescaleFeatures_unit :
    rescaleFeatures unitBasis rampImage = some [[[0, 99 / 100, 1]]] := by
  have hn : unitBasis.num_kernels.toNat = 1 := rfl
  have hr1 : List.range 1 = [0] := rfl
  have hmm : minMaxLoc [[0, 99 / 255, 100 / 255]] = (0, 100 / 255) := by
    unfold minMaxLoc
    simp only [List.flatten, List.append_nil, List.foldl_cons, List.foldl_nil]
    norm_num
  have hg : globalRange unitBasis rampImage = some (0, 100 / 255) := by
    unfold globalRange
    rw [hn, hr1, List.foldl_cons, List.foldl_nil, featureMap_unit]
    simp only [hmm]
    norm_num
  unfold rescaleFeatures
  rw [hg, hn, hr1]
  simp only []
  rw [List.mapM_cons, List.mapM_nil, featureMap_unit]
  simp [divScalar]
  norm_num

/-- C12 (the code at the failing input): with the basis of one 1 x 1 kernel of weight 1, the
one-row image with samples 0, 99, 100 has the rescaled feature map `0, 99/100, 1`. The
sample `99/100` is counted by the histogram in bin `floor(256*99/100) = 253`, whose count is
1, but the index looked up for it is `round(255*99/100) = 252`, whose count is 0, so its
probability is taken as 0 and not as 1/3. The sample `1`, whose looked-up index is 255, is
counted in no bin, because the upper bound of the range is exclusive, and the count looked up
for it is 0 as well. -/
theorem lookupIdx_differs_from_counted_bin :
    rescaleFeatures unitBasis rampImage = some [[[0, 99 / 100, 1]]] ∧
    calcHistBin (99 / 100) = some 253 ∧
    lookupIdx (99 / 100) = 252 ∧
    histAt (calcHist [[0, 99 / 100, 1]]) 253 = some 1 ∧
    histAt (calcHist [[0, 99 / 100, 1]]) (lookupIdx (99 / 100)) = some 0 ∧
    lookupProbability (calcHist [[0, 99 / 100, 1]]) 3 (99 / 100) = some 0 ∧
    lookupIdx 1 = 255 ∧
    calcHistBin 1 = none ∧
    histAt (calcHist [[0, 99 / 100, 1]]) (lookupIdx 1) = some 0 := by
  have hfl : ([[0, 99 / 100, 1]] : Mat ℚ).flatten = [0, 99 / 100, 1] := rfl
  have h253 : histAt (calcHist [[0, 99 / 100, 1]]) 253 = some 1 := by
    rw [show (253 : Int) = ((253 : Nat) : Int) from rfl, histAt_calcHist _ 253 (by decide), hfl]
    simp [List.filter, calcHistBin_zero, calcHistBin_near_one, calcHistBin_one]
  have h252 : histAt (calcHist [[0, 99 / 100, 1]]) (lookupIdx (99 / 100)) = some 0 := by
    rw [lookupIdx_near_one, show (252 : Int) = ((252 : Nat) : Int) from rfl,
      histAt_calcHist _ 252 (by decide), hfl]
    simp [List.filter, calcHistBin_zero, calcHistBin_near_one, calcHistBin_one]
  have h255 : histAt (calcHist [[0, 99 / 100, 1]]) (lookupIdx 1) = some 0 := by
    rw [lookupIdx_one, show (255 : Int) = ((255 : Nat) : Int) from rfl,
      histAt_calcHist _ 255 (by decide), hfl]
    simp [List.filter, calcHistBin_zero, calcHistBin_near_one, calcHistBin_one]
  refine ⟨rescaleFeatures_unit, calcHistBin_near_one, lookupIdx_near_one, h253, h252, ?_,
    lookupIdx_one, calcHistBin_one, h255⟩
  unfold lookupProbability
  rw [h252]
  simp

end Saliency
